import Mathlib

/-!
Verification development for the zenwave HTTP-client middleware core.

The Rust sources under `src/` are shallowly embedded below: header maps
become association lists of lowercase names, `Instant`/`SystemTime` values
become natural numbers counting seconds, request/response bodies become a
sum type, and each middleware's `respond`/`handle` function becomes a pure
Lean function (endpoints are passed in as functions, and the outputs record
which inner requests were issued so call counts can be reasoned about).
-/

namespace Zenwave

/-! ## ASCII string helpers (mirroring the `str` operations used in `cache.rs`) -/

/-- Lowercase a single ASCII character, as Rust `to_ascii_lowercase` does per byte. -/
def lowerChar (c : Char) : Char :=
  if 'A' ≤ c ∧ c ≤ 'Z' then Char.ofNat (c.toNat + 32) else c

/-- ASCII-lowercase a character list. Mirrors `str::to_ascii_lowercase`. -/
def asciiLower (l : List Char) : List Char := l.map lowerChar

/-- Whitespace as recognised by `str::trim` (ASCII fragment, which is all the
    cache directives can contain). -/
def isWsChar (c : Char) : Bool := c = ' ' ∨ c = '\t' ∨ c = '\n' ∨ c = '\r'

/-- Trim leading and trailing whitespace, as `str::trim`. -/
def trimAscii (l : List Char) : List Char :=
  ((l.dropWhile isWsChar).reverse.dropWhile isWsChar).reverse

/-- Split a character list at every occurrence of `sep`, as Rust `str::split(sep)`. -/
def splitOnChar (sep : Char) : List Char → List Char → List (List Char)
  | [], acc => [acc.reverse]
  | c :: rest, acc =>
    if c = sep then acc.reverse :: splitOnChar sep rest []
    else splitOnChar sep rest (c :: acc)

/-- Numeric value of a decimal digit list, or `none` when empty or non-numeric. -/
def digitsVal : List Char → Option Nat
  | [] => none
  | l =>
    if l.all Char.isDigit then
      some (l.foldl (fun acc c => 10 * acc + (c.toNat - '0'.toNat)) 0)
    else none

/-- Rust `str::parse::<u64>`: an optional leading `+`, then decimal digits,
    rejecting values that overflow `u64`. -/
def parseU64 (l : List Char) : Option Nat :=
  let t := match l with
    | '+' :: rest => rest
    | other => other
  match digitsVal t with
  | some n => if n < 2 ^ 64 then some n else none
  | none => none

/-! ## Header multimaps (the fragment of `http::HeaderMap` the middlewares use).
    Header names are stored already lowercased, as `http` normalises them. -/

/-- A header multimap: ordered list of (lowercase name, value) pairs. -/
abbrev Headers := List (String × String)

namespace Headers

/-- First value for a name (`HeaderMap::get`). -/
def get (h : Headers) (name : String) : Option String :=
  (h.find? (fun p => p.1 = name)).map (·.2)

/-- All values for a name in order (`HeaderMap::get_all`). -/
def getAll (h : Headers) (name : String) : List String :=
  (h.filter (fun p => p.1 = name)).map (·.2)

/-- Remove every value for a name (`HeaderMap::remove`). -/
def remove (h : Headers) (name : String) : Headers :=
  h.filter (fun p => p.1 ≠ name)

/-- Replace all values for a name by a single value (`HeaderMap::insert`). -/
def insert (h : Headers) (name value : String) : Headers :=
  remove h name ++ [(name, value)]

/-- `HeaderMap::contains_key`. -/
def containsKey (h : Headers) (name : String) : Bool :=
  (h.find? (fun p => p.1 = name)).isSome

end Headers

/-! ## Requests, responses and bodies -/

/-- Modelled from the spec: `http_kit`'s body is "either empty, a byte buffer,
    or a one-shot opaque stream (consumable exactly once)"; taking the body
    leaves a consumed marker behind, and taking it again fails. Bytes are
    modelled as `List Nat`. -/
inductive Body where
  | empty
  | bytes (data : List Nat)
  | stream (data : List Nat)
  | consumed
deriving DecidableEq, Repr

namespace Body

/-- Modelled from the spec: `Body::take` yields the current body unless it was
    already consumed. -/
def take : Body → Option Body
  | .consumed => none
  | b => some b

/-- Modelled from the spec: materialize a (non-consumed) body into bytes. -/
def intoBytes : Body → List Nat
  | .empty => []
  | .bytes d => d
  | .stream d => d
  | .consumed => []

end Body

/-- HTTP methods (`http::Method`). -/
inductive Method where
  | get
  | head
  | post
  | put
  | delete
  | other (name : String)
deriving DecidableEq, Repr

/-- An HTTP request: the fields of `http::Request` the middlewares inspect
    (version and extensions are carried through untouched and omitted). -/
structure Request where
  method : Method
  uri : String
  headers : Headers
  body : Body
deriving DecidableEq, Repr

/-- An HTTP response (`http::Response`): status code, headers, body. -/
structure Response where
  status : Nat
  headers : Headers
  body : Body
deriving DecidableEq, Repr

/-! ## `cache.rs`: Cache-Control parsing -/

/-- Parsed `Cache-Control` directives (`cache.rs` `struct CacheControl`). -/
structure CacheControl where
  no_cache : Bool := false
  no_store : Bool := false
  max_age : Option Nat := none
  must_revalidate : Bool := false
  public : Bool := false
deriving DecidableEq, Repr

namespace CacheControl

/-- One directive of a `Cache-Control` value: trim, ASCII-lowercase, then match
    (the body of the fold in `CacheControl::from_header_map`). -/
def applyDirective (acc : CacheControl) (directive : List Char) : CacheControl :=
  let lower := asciiLower (trimAscii directive)
  if lower = "no-cache".data then { acc with no_cache := true }
  else if lower = "no-store".data then { acc with no_store := true }
  else if lower = "must-revalidate".data then { acc with must_revalidate := true }
  else if lower = "public".data then { acc with public := true }
  else if "max-age=".data.isPrefixOf lower then
    match parseU64 (lower.drop 8) with
    | some value => { acc with max_age := some value }
    | none => acc
  else acc

/-- `CacheControl::from_header_map`: fold every `Cache-Control` header value,
    split on commas, over the default directive set. -/
def fromHeaderMap (headers : Headers) : CacheControl :=
  (Headers.getAll headers "cache-control").foldl
    (fun acc value => (splitOnChar ',' value.data []).foldl applyDirective acc)
    {}

end CacheControl

/-- `expires_in` (`cache.rs`): parse the `Expires` header with the external
    `httpdate::parse_http_date` (passed in as `parse`, yielding seconds since
    the epoch) and compare against the wall clock `sysNow`; a past, unparsable
    or zero-duration value yields `none`. -/
def expiresIn (parse : String → Option Nat) (sysNow : Nat) (headers : Headers) :
    Option Nat :=
  match Headers.get headers "expires" with
  | none => none
  | some text =>
    match parse text with
    | none => none
    | some timestamp =>
      if timestamp > sysNow then some (timestamp - sysNow) else none

/-! ## `cache.rs`: cached entries and the cache middleware -/

/-- `cache.rs` `struct CachedResponse`. Instants and durations are seconds. -/
structure CachedResponse where
  status : Nat
  headers : Headers
  body : List Nat
  stored_at : Nat
  freshness : Option Nat
  must_revalidate : Bool
  etag : Option String
  last_modified : Option String
deriving DecidableEq, Repr

/-- The cache's entry table (`HashMap<String, CachedResponse>`), as an
    association list with unique keys. -/
abbrev Entries := List (String × CachedResponse)

/-- Lookup in the entry table (`HashMap::get`). -/
def Entries.get (entries : Entries) (key : String) : Option CachedResponse :=
  (entries.find? (fun p => p.1 = key)).map (·.2)

/-- Remove a key (`HashMap::remove`). -/
def Entries.remove (entries : Entries) (key : String) : Entries :=
  entries.filter (fun p => p.1 ≠ key)

/-- Insert/overwrite a key (`HashMap::insert`). -/
def Entries.insert (entries : Entries) (key : String) (entry : CachedResponse) :
    Entries :=
  Entries.remove entries key ++ [(key, entry)]

namespace CachedResponse

/-- `CachedResponse::is_fresh`: `now - stored_at < freshness`. -/
def isFresh (entry : CachedResponse) (now : Nat) : Bool :=
  match entry.freshness with
  | some fresh => now - entry.stored_at < fresh
  | none => false

/-- `CachedResponse::can_revalidate`. -/
def canRevalidate (entry : CachedResponse) : Bool :=
  entry.etag.isSome || entry.last_modified.isSome

/-- `CachedResponse::apply_conditional_headers`. -/
def applyConditionalHeaders (entry : CachedResponse) (headers : Headers) : Headers :=
  let headers := match entry.etag with
    | some etag => Headers.insert headers "if-none-match" etag
    | none => headers
  match entry.last_modified with
  | some lm => Headers.insert headers "if-modified-since" lm
  | none => headers

/-- `CachedResponse::to_response`: synthesize a response from the entry,
    overwriting the `Age` header with the whole seconds since `stored_at`. -/
def toResponse (entry : CachedResponse) (now : Nat) : Response :=
  { status := entry.status
    headers := Headers.insert entry.headers "age" (toString (now - entry.stored_at))
    body := .bytes entry.body }

/-- `CachedResponse::update_from_304`: reset `stored_at`, merge the allow-listed
    headers from the 304 into the stored headers, then recompute freshness from
    the 304's own `Cache-Control` (or, absent a `max-age` there, from the merged
    `Expires`) and accumulate `must_revalidate`. -/
def updateFrom304 (parse : String → Option Nat) (sysNow : Nat)
    (entry : CachedResponse) (response : Response) (now : Nat) : CachedResponse :=
  let merged :=
    ["cache-control", "etag", "expires", "date", "last-modified"].foldl
      (fun hs name =>
        match Headers.get response.headers name with
        | some value => Headers.insert hs name value
        | none => hs)
      entry.headers
  let cc := CacheControl.fromHeaderMap response.headers
  let freshness₁ := match cc.max_age with
    | some maxAge => some maxAge
    | none => entry.freshness
  let mustRevalidate := if cc.no_cache || cc.must_revalidate then true
    else entry.must_revalidate
  let freshness₂ :=
    if cc.max_age.isNone then
      match expiresIn parse sysNow merged with
      | some duration => some duration
      | none => freshness₁
    else freshness₁
  { entry with
      stored_at := now
      headers := merged
      freshness := freshness₂
      must_revalidate := mustRevalidate }

/-- The entry `CachedResponse::from_response` builds in its storing branch:
    validators and headers snapshot from the response, freshness from
    `max-age` falling back to `Expires`, `must_revalidate` accumulated from
    the response directives and the request-side `no-cache`. -/
def buildEntry (parse : String → Option Nat) (sysNow : Nat)
    (response : Response) (directives : CacheControl) (now : Nat)
    (requestNoCache : Bool) : CachedResponse :=
  { status := response.status
    headers := response.headers
    body := response.body.intoBytes
    stored_at := now
    freshness :=
      match directives.max_age with
      | some maxAge => some maxAge
      | none => expiresIn parse sysNow response.headers
    must_revalidate :=
      directives.no_cache || directives.must_revalidate || requestNoCache
    etag := Headers.get response.headers "etag"
    last_modified := Headers.get response.headers "last-modified" }

/-- `CachedResponse::from_response`: decide storability and build an entry.
    The returned response keeps the original headers minus `Age` when stored,
    and is returned untouched when not stored; `.error` models the body
    buffering failure (surfaced with status 503 in the source). -/
def fromResponse (parse : String → Option Nat) (sysNow : Nat)
    (response : Response) (directives : CacheControl) (now : Nat)
    (requestNoCache : Bool) : Except Unit (Response × Option CachedResponse) :=
  let freshness := match directives.max_age with
    | some maxAge => some maxAge
    | none => expiresIn parse sysNow response.headers
  let mustRevalidate :=
    directives.no_cache || directives.must_revalidate || requestNoCache
  let shouldStore := freshness.isSome || mustRevalidate
  if !shouldStore then
    .ok (response, none)
  else
    match response.body.take with
    | none => .error ()
    | some body =>
      .ok
        ({ status := response.status
           headers := Headers.remove response.headers "age"
           body := .bytes body.intoBytes },
         some (buildEntry parse sysNow response directives now requestNoCache))

end CachedResponse

/-- Errors out of the cache middleware: an inner endpoint error, or the
    body-buffering failure from `from_response`. -/
inductive CacheError (ε : Type) where
  | endpoint (e : ε)
  | bodyUnavailable
deriving DecidableEq, Repr

instance {α β : Type _} [DecidableEq α] [DecidableEq β] : DecidableEq (Except α β)
  | .error a, .error b =>
    if h : a = b then .isTrue (by rw [h]) else .isFalse (by intro hc; cases hc; exact h rfl)
  | .error _, .ok _ => .isFalse (by intro hc; cases hc)
  | .ok _, .error _ => .isFalse (by intro hc; cases hc)
  | .ok a, .ok b =>
    if h : a = b then .isTrue (by rw [h]) else .isFalse (by intro hc; cases hc; exact h rfl)

/-- Result of one `Cache::handle` call: the response or error, the updated
    entry table, whether the inner endpoint was invoked, and the request it
    received if so. -/
structure CacheOut (ε : Type) where
  result : Except (CacheError ε) Response
  entries : Entries
  innerCalled : Bool
  innerRequest : Option Request
deriving DecidableEq, Repr

/-- `Cache::cache_key`: only GET requests are cacheable; the key is the URI. -/
def cacheKey (request : Request) : Option String :=
  if request.method = .get then some request.uri else none

/-- The fresh-hit test of `Cache::handle` (lines 54-58): a stored entry is
    served locally when the request allows caching, the entry does not demand
    revalidation, and it is still fresh. -/
def freshLookup (entries : Entries) (key : String) (requestCC : CacheControl)
    (now : Nat) : Option CachedResponse :=
  match Entries.get entries key with
  | some entry =>
    if !requestCC.no_cache && !entry.must_revalidate && entry.isFresh now then
      some entry
    else none
  | none => none

/-- The pre-dispatch mutation block of `Cache::handle` (lines 62-73): decide
    whether the stored entry becomes pending revalidation (removed from the
    table, conditional headers attached) or is evicted as irrecoverably stale. -/
def revalidationPhase (entries : Entries) (key : String) (request : Request)
    (now : Nat) (requestCC : CacheControl) :
    Entries × Option CachedResponse × Request :=
  match Entries.get entries key with
  | none => (entries, none, request)
  | some entry =>
    let entryRequiresRevalidation := entry.must_revalidate || !entry.isFresh now
    let needsRevalidation := requestCC.no_cache || entryRequiresRevalidation
    if needsRevalidation && entry.canRevalidate then
      (Entries.remove entries key, some entry,
        { request with headers := entry.applyConditionalHeaders request.headers })
    else if entryRequiresRevalidation && !entry.canRevalidate then
      (Entries.remove entries key, none, request)
    else
      (entries, none, request)

/-- `Cache::handle` (the `Middleware` impl in `cache.rs`). `parse`/`sysNow`
    model the external HTTP-date parser and wall clock used by `expires_in`;
    `now` is the `Instant` taken at the top; `next` is the inner endpoint. -/
def Cache.handle {ε : Type} (parse : String → Option Nat) (sysNow : Nat)
    (entries : Entries) (request : Request) (now : Nat)
    (next : Request → Except ε Response) : CacheOut ε :=
  match cacheKey request with
  | none =>
    { result := (next request).mapError .endpoint
      entries := entries
      innerCalled := true
      innerRequest := some request }
  | some key =>
    let requestCC := CacheControl.fromHeaderMap request.headers
    if requestCC.no_store then
      { result := (next request).mapError .endpoint
        entries := Entries.remove entries key
        innerCalled := true
        innerRequest := some request }
    else
      match freshLookup entries key requestCC now with
      | some entry =>
        { result := .ok (entry.toResponse now)
          entries := entries
          innerCalled := false
          innerRequest := none }
      | none =>
        let (entriesMid, cachedEntry, request') :=
          revalidationPhase entries key request now requestCC
        match next request' with
        | .error e =>
          { result := .error (.endpoint e)
            entries := entriesMid
            innerCalled := true
            innerRequest := some request' }
        | .ok response =>
          if response.status = 304 then
            match cachedEntry with
            | some entry =>
              let entry := entry.updateFrom304 parse sysNow response now
              { result := .ok (entry.toResponse now)
                entries := Entries.insert entriesMid key entry
                innerCalled := true
                innerRequest := some request' }
            | none =>
              { result := .ok response
                entries := entriesMid
                innerCalled := true
                innerRequest := some request' }
          else
            let responseCC := CacheControl.fromHeaderMap response.headers
            let authPresent := Headers.containsKey request'.headers "authorization"
            let allowShared := !authPresent || responseCC.public
            if allowShared && !responseCC.no_store then
              match CachedResponse.fromResponse parse sysNow response responseCC
                  now requestCC.no_cache with
              | .error _ =>
                { result := .error .bodyUnavailable
                  entries := entriesMid
                  innerCalled := true
                  innerRequest := some request' }
              | .ok (_response, some entry) =>
                { result := .ok (entry.toResponse now)
                  entries := Entries.insert entriesMid key entry
                  innerCalled := true
                  innerRequest := some request' }
              | .ok (response2, none) =>
                { result := .ok response2
                  entries := entriesMid
                  innerCalled := true
                  innerRequest := some request' }
            else
              { result := .ok response
                entries := entriesMid
                innerCalled := true
                innerRequest := some request' }

/-! ## `error.rs`: the unified error type and its status mapping -/

/-- `error.rs` `enum OAuth2ErrorKind`. -/
inductive OAuth2ErrorKind where
  | tokenFetchFailed (message : String)
  | tokenEndpointError (status : Nat) (message : String)
  | invalidTokenResponse (message : String)
deriving DecidableEq, Repr

/-- `error.rs` `enum DownloadErrorKind` (`FileSystem`/`BodyRead` payloads
    collapsed to message strings). -/
inductive DownloadErrorKind where
  | upstreamError (status : Nat)
  | fileSystem (message : String)
  | bodyRead (message : String)
deriving DecidableEq, Repr

/-- `error.rs` `enum Error`, the unified zenwave error (source payloads such as
    boxed `dyn Error` values are modelled as message strings; the cookie,
    websocket and body-parse payloads are irrelevant to the claims). -/
inductive ZError where
  | http (status : Nat) (message : String)
  | transport (message : String)
  | tls (message : String)
  | timeout
  | tooManyRedirects (max : Nat)
  | invalidRedirectLocation
  | invalidUri (message : String)
  | invalidRequest (message : String)
  | bodyParse (message : String)
  | cookie (message : String)
  | oauth2 (kind : OAuth2ErrorKind)
  | download (kind : DownloadErrorKind)
  | websocket (message : String)
  | io (message : String)
  | other (message : String)
deriving DecidableEq, Repr

/-- `impl http_kit::HttpError for Error` in `error.rs`: `Timeout` maps to 504,
    `Http`/OAuth2 `TokenEndpointError`/`Download UpstreamError` pass their own
    status through, everything else maps to 500. -/
def ZError.status : ZError → Nat
  | .timeout => 504
  | .http status _ => status
  | .oauth2 (.tokenEndpointError status _) => status
  | .download (.upstreamError status) => status
  | _ => 500

/-- `impl HttpError for TimeoutError` in `timeout.rs`. -/
def timeoutErrorStatus : Option Nat := some 504

/-- `oauth2.rs` `enum OAuth2Error<H>` (token-flow errors). -/
inductive OAuth2Error (ε : Type) where
  | transport (e : ε)
  | upstream (status : Nat) (message : String)
  | invalidResponse (message : String)
deriving DecidableEq, Repr

/-- `impl HttpError for OAuth2Error` in `oauth2.rs`, given the inner error's
    own status mapping. -/
def OAuth2Error.statusOf {ε : Type} (innerStatus : ε → Option Nat) :
    OAuth2Error ε → Option Nat
  | .transport e => innerStatus e
  | .upstream status _ => some status
  | .invalidResponse _ => some 502

/-- `redirect.rs` `enum FollowRedirectError<H>`. -/
inductive FollowRedirectError (ε : Type) where
  | invalidUrl
  | remoteError (e : ε)
  | tooManyRedirects
  | missingLocationHeader
  | invalidLocationHeader
  | requestBuildError (e : ZError)
deriving DecidableEq, Repr

/-- `impl HttpError for FollowRedirectError` in `redirect.rs`: remote and
    request-build errors delegate, every other variant maps to 500. -/
def FollowRedirectError.statusOf {ε : Type} (innerStatus : ε → Nat) :
    FollowRedirectError ε → Nat
  | .remoteError e => innerStatus e
  | .requestBuildError e => e.status
  | _ => 500

/-! ## `redirect.rs`: the redirect-following middleware -/

/-- The slice of `url::Url` the middleware reads: the host (if any) and the
    serialized form fed back into `Uri` parsing. -/
structure Url where
  host : Option String
  str : String
deriving DecidableEq, Repr

/-- External `url`-crate operations, passed in as parameters: absolute URL
    parsing, relative join against a base, and `Uri` re-parsing of a
    serialized URL (`true` when parsing succeeds). -/
structure UrlOps where
  parseUrl : String → Option Url
  joinUrl : Url → String → Option Url
  uriOk : String → Bool

/-- `redirect.rs` `struct RequestSnapshot`: the buffered body bytes (version
    and extensions are carried through untouched and omitted). -/
structure RedirectSnapshot where
  body : List Nat
deriving DecidableEq, Repr

/-- `RequestSnapshot::from_request` (`redirect.rs`): take and buffer the body,
    failing with `InvalidRequest` when it was already consumed. Returns the
    snapshot together with the request whose body slot is now consumed. -/
def RedirectSnapshot.fromRequest (request : Request) :
    Except ZError (RedirectSnapshot × Request) :=
  match request.body.take with
  | none => .error (.invalidRequest "request body already consumed")
  | some body =>
    .ok ({ body := body.intoBytes }, { request with body := .consumed })

/-- Modelled from the spec: `crate::auth::suppress_auth_header` is referenced
    by `redirect.rs` but absent from the sources; per the spec's sticky
    credential-stripping rule it removes the `Authorization` header from the
    rebuilt request. -/
def suppressAuthHeader (headers : Headers) : Headers :=
  Headers.remove headers "authorization"

/-- `RequestSnapshot::build_request` (`redirect.rs`): empty body for GET/HEAD,
    otherwise the snapshot bytes; re-parse the URL as a `Uri`; strip
    `Authorization`/`Cookie` (again) when `suppressAuth` is set. -/
def RedirectSnapshot.buildRequest (ops : UrlOps) (snapshot : RedirectSnapshot)
    (method : Method) (url : Url) (headers : Headers) (suppressAuth : Bool) :
    Except ZError Request :=
  let body := if method = .get ∨ method = .head then Body.empty
    else Body.bytes snapshot.body
  if ops.uriOk url.str then
    let merged :=
      if suppressAuth then
        Headers.remove (Headers.remove headers "authorization") "cookie"
      else headers
    let merged := if suppressAuth then suppressAuthHeader merged else merged
    .ok { method := method, uri := url.str, headers := merged, body := body }
  else
    .error (.invalidRequest "invalid redirect URI")

/-- `http::StatusCode::is_redirection`: 300..=399. -/
def isRedirection (status : Nat) : Bool := 300 ≤ status ∧ status ≤ 399

/-- The method-transition match in `FollowRedirect::respond` (lines 129-137):
    303 always downgrades to GET, 301/302 downgrade anything but GET/HEAD,
    everything else keeps the current method. -/
def nextMethodFor (status : Nat) (current : Method) : Method :=
  if status = 303 then .get
  else if (status = 301 ∨ status = 302) ∧ current ≠ .get ∧ current ≠ .head then
    .get
  else current

/-- The header-transition block in `FollowRedirect::respond` (lines 139-152):
    rebuild from the original headers, always dropping `Host`, dropping
    `Content-Length`/`Content-Type` only when the body is dropped, and dropping
    `Authorization`/`Cookie` when stripping is (now) in effect. -/
def redirectHeaders (initialHeaders : Headers) (next : Method)
    (authStripped : Bool) : Headers :=
  let headers := Headers.remove initialHeaders "host"
  let dropBody := next = .get ∨ next = .head
  let headers :=
    if dropBody then
      Headers.remove (Headers.remove headers "content-length") "content-type"
    else headers
  if authStripped then
    Headers.remove (Headers.remove headers "authorization") "cookie"
  else headers

/-- `Url::parse(location).or_else(|_| current_url.join(location))`. -/
def resolveLocation (ops : UrlOps) (current : Url) (location : String) :
    Option Url :=
  match ops.parseUrl location with
  | some url => some url
  | none => ops.joinUrl current location

/-- `MAX_REDIRECTS` in `FollowRedirect::respond`. -/
def maxRedirects : Nat := 10

/-- The loop of `FollowRedirect::respond`. `next` is the inner client, indexed
    by the number of calls made so far; the returned list is the trace of
    requests issued to it. The source counts `redirect_count` up and errors
    once `redirect_count >= MAX_REDIRECTS`; here the loop counts the remaining
    redirect budget (`maxRedirects - redirect_count`) down to zero, which is
    the same bound but gives structural recursion. -/
def followLoop {ε : Type} (ops : UrlOps) (next : Nat → Request → Except ε Response)
    (snapshot : RedirectSnapshot) (initialHeaders : Headers) (method : Method)
    (url : Url) (headers : Headers) (authStripped : Bool) (remaining : Nat)
    (trace : List Request) : Except (FollowRedirectError ε) Response × List Request :=
  match snapshot.buildRequest ops method url headers authStripped with
  | .error e => (.error (.requestBuildError e), trace)
  | .ok request =>
    let trace' := trace ++ [request]
    match next trace.length request with
    | .error e => (.error (.remoteError e), trace')
    | .ok response =>
      if !isRedirection response.status then (.ok response, trace')
      else
        match remaining with
        | 0 => (.error .tooManyRedirects, trace')
        | remaining' + 1 =>
          match Headers.get response.headers "location" with
          | none => (.error .missingLocationHeader, trace')
          | some location =>
            match resolveLocation ops url location with
            | none => (.error .invalidLocationHeader, trace')
            | some redirectUrl =>
              let nextMethod := nextMethodFor response.status method
              let stripped := authStripped || (url.host ≠ redirectUrl.host)
              let headers' := redirectHeaders initialHeaders nextMethod stripped
              followLoop ops next snapshot initialHeaders nextMethod redirectUrl
                headers' stripped remaining' trace'

/-- `FollowRedirect::respond` (`redirect.rs`): snapshot the body, parse the
    starting URL, then run the hop loop with the full redirect budget. -/
def FollowRedirect.respond {ε : Type} (ops : UrlOps)
    (next : Nat → Request → Except ε Response) (request : Request) :
    Except (FollowRedirectError ε) Response × List Request :=
  match RedirectSnapshot.fromRequest request with
  | .error e => (.error (.requestBuildError e), [])
  | .ok (snapshot, _) =>
    let initialHeaders := request.headers
    match ops.parseUrl request.uri with
    | none => (.error .invalidUrl, [])
    | some url =>
      followLoop ops next snapshot initialHeaders request.method url
        initialHeaders false maxRedirects []

/-! ## `retry.rs`: the retry middleware -/

/-- `retry.rs` `struct RequestSnapshot` (version and extensions omitted as
    inert). -/
structure RetrySnapshot where
  method : Method
  uri : String
  headers : Headers
  body : List Nat
deriving DecidableEq, Repr

/-- `RequestSnapshot::from_request` (`retry.rs`): capture method, URI, headers
    and buffered body bytes; fails with `InvalidRequest` when the body was
    already consumed. -/
def RetrySnapshot.fromRequest (request : Request) :
    Except ZError (RetrySnapshot × Request) :=
  match request.body.take with
  | none => .error (.invalidRequest "request body already consumed")
  | some body =>
    .ok
      ({ method := request.method, uri := request.uri,
         headers := request.headers, body := body.intoBytes },
       { request with body := .consumed })

/-- `RequestSnapshot::build_request` (`retry.rs`): rebuild an identical request
    from the snapshot, with the buffered bytes as body. -/
def RetrySnapshot.buildRequest (snapshot : RetrySnapshot) : Request :=
  { method := snapshot.method, uri := snapshot.uri,
    headers := snapshot.headers, body := .bytes snapshot.body }

/-- The loop of `Retry::respond`: return the first response, count a failure
    otherwise, give up once `attempts > max_retries` (the backoff sleep has no
    observable effect here). `attempts` equals the number of calls made so far
    and indexes the inner endpoint. The source increments `attempts` and stops
    when `attempts > max_retries`; here the loop carries the remaining retry
    budget (`max_retries - attempts`) down to zero, the same bound but with
    structural recursion. -/
def retryLoop {ε : Type} (next : Nat → Request → Except ε Response)
    (toZ : ε → ZError) (snapshot : RetrySnapshot) (attempts : Nat)
    (remaining : Nat) (trace : List Request) : Except ZError Response × List Request :=
  let request := snapshot.buildRequest
  let trace' := trace ++ [request]
  match next attempts request with
  | .ok response => (.ok response, trace')
  | .error e =>
    match remaining with
    | 0 => (.error (toZ e), trace')
    | remaining' + 1 => retryLoop next toZ snapshot (attempts + 1) remaining' trace'

/-- `Retry::respond` (`retry.rs`): snapshot the request once, then loop with
    the full retry budget. -/
def Retry.respond {ε : Type} (next : Nat → Request → Except ε Response)
    (toZ : ε → ZError) (maxRetries : Nat) (request : Request) :
    Except ZError Response × List Request :=
  match RetrySnapshot.fromRequest request with
  | .error e => (.error e, [])
  | .ok (snapshot, _) => retryLoop next toZ snapshot 0 maxRetries []

/-! ## `oauth2.rs`: token expiry computation -/

/-- The deserialized token-endpoint response (`struct TokenEndpointResponse`). -/
structure TokenEndpointResponse where
  access_token : String
  token_type : Option String := none
  expires_in : Option Nat := none
deriving DecidableEq, Repr

/-- `struct TokenInfo` (`oauth2.rs`); instants are seconds. -/
structure TokenInfo where
  access_token : String
  expires_at : Nat
deriving DecidableEq, Repr

/-- `TokenInfo::is_valid`: `now < expires_at`. -/
def TokenInfo.isValid (token : TokenInfo) (now : Nat) : Bool :=
  now < token.expires_at

/-- The safety window configured by `OAuth2ClientCredentials::new`
    (30 seconds; the sources expose no way to change it). -/
def defaultSafetyWindow : Nat := 30

/-- The expiry computation at the end of `OAuth2ClientCredentials::fetch_token`
    (lines 181-192): `expires_in` defaults to 3600, the safety window is capped
    at half the lifetime, and the subtraction saturates. -/
def fetchTokenInfo (safetyWindow : Nat) (token : TokenEndpointResponse)
    (now : Nat) : TokenInfo :=
  let expiresIn := token.expires_in.getD 3600
  let lifetime := expiresIn
  let safety := min safetyWindow (expiresIn / 2)
  { access_token := token.access_token, expires_at := now + (lifetime - safety) }

/-! ## Helper lemmas about header maps -/

theorem Headers.get_cons (p : String × String) (t : Headers) (m : String) :
    Headers.get (p :: t) m = if p.1 = m then some p.2 else Headers.get t m := by
  unfold Headers.get
  rw [List.find?_cons]
  by_cases hp : p.1 = m <;> simp [hp]

theorem Headers.remove_cons (p : String × String) (t : Headers) (n : String) :
    Headers.remove (p :: t) n =
      if p.1 = n then Headers.remove t n else p :: Headers.remove t n := by
  unfold Headers.remove
  rw [List.filter_cons]
  by_cases hp : p.1 = n <;> simp [hp]

theorem Headers.get_remove_self (h : Headers) (n : String) :
    Headers.get (Headers.remove h n) n = none := by
  induction h with
  | nil => rfl
  | cons p t ih =>
    rw [Headers.remove_cons]
    by_cases hp : p.1 = n
    · rw [if_pos hp]; exact ih
    · rw [if_neg hp, Headers.get_cons, if_neg hp]; exact ih

theorem Headers.get_remove_ne (h : Headers) (n m : String) (hnm : m ≠ n) :
    Headers.get (Headers.remove h n) m = Headers.get h m := by
  induction h with
  | nil => rfl
  | cons p t ih =>
    rw [Headers.remove_cons, Headers.get_cons]
    by_cases hp : p.1 = n
    · have hpm : ¬p.1 = m := by rw [hp]; exact fun hc => hnm hc.symm
      rw [if_pos hp, if_neg hpm]
      exact ih
    · rw [if_neg hp, Headers.get_cons]
      by_cases hm : p.1 = m
      · rw [if_pos hm, if_pos hm]
      · rw [if_neg hm, if_neg hm]; exact ih

theorem Headers.get_append (a b : Headers) (n : String) :
    Headers.get (a ++ b) n =
      match Headers.get a n with
      | some v => some v
      | none => Headers.get b n := by
  induction a with
  | nil => simp [Headers.get]
  | cons p t ih =>
    rw [List.cons_append, Headers.get_cons, Headers.get_cons]
    by_cases hp : p.1 = n
    · rw [if_pos hp, if_pos hp]
    · rw [if_neg hp, if_neg hp]; exact ih

theorem Headers.get_insert_self (h : Headers) (n v : String) :
    Headers.get (Headers.insert h n v) n = some v := by
  rw [Headers.insert, Headers.get_append, Headers.get_remove_self]
  simp [Headers.get]

theorem Headers.get_insert_ne (h : Headers) (n m v : String) (hnm : m ≠ n) :
    Headers.get (Headers.insert h n v) m = Headers.get h m := by
  rw [Headers.insert, Headers.get_append]
  rw [Headers.get_remove_ne h n m hnm]
  cases hg : Headers.get h m with
  | some w => rfl
  | none => simp [Headers.get, Ne.symm hnm]

theorem Headers.containsKey_eq_isSome_get (h : Headers) (n : String) :
    Headers.containsKey h n = (Headers.get h n).isSome := by
  simp [Headers.containsKey, Headers.get]

/-- Attaching `If-None-Match`/`If-Modified-Since` does not affect whether an
    `Authorization` header is present. -/
theorem containsKey_auth_applyConditionalHeaders (entry : CachedResponse)
    (h : Headers) :
    Headers.containsKey (entry.applyConditionalHeaders h) "authorization" =
      Headers.containsKey h "authorization" := by
  rw [Headers.containsKey_eq_isSome_get, Headers.containsKey_eq_isSome_get]
  unfold CachedResponse.applyConditionalHeaders
  cases entry.etag with
  | none =>
    cases entry.last_modified with
    | none => rfl
    | some lm => rw [Headers.get_insert_ne _ _ _ _ (by decide)]
  | some etag =>
    cases entry.last_modified with
    | none => rw [Headers.get_insert_ne _ _ _ _ (by decide)]
    | some lm =>
      rw [Headers.get_insert_ne _ _ _ _ (by decide),
        Headers.get_insert_ne _ _ _ _ (by decide)]

/-! ## Concrete fixtures used by witnesses and counterexamples -/

/-- A POST request with a buffered body and the headers the redirect claims
    talk about. -/
def demoPostRequest : Request :=
  { method := .post
    uri := "http://origin.example/submit"
    headers := [("host", "origin.example"), ("content-length", "3"),
                ("content-type", "text/plain"), ("authorization", "Bearer tok"),
                ("cookie", "k=v")]
    body := .bytes [1, 2, 3] }

/-- The snapshot `RequestSnapshot::from_request` takes of `demoPostRequest`. -/
def demoRetrySnap : RetrySnapshot :=
  { method := .post
    uri := "http://origin.example/submit"
    headers := demoPostRequest.headers
    body := [1, 2, 3] }

/-- A plain 200 response. -/
def demoOkResponse : Response := { status := 200, headers := [], body := .empty }

/-- An endpoint failing on its first two calls and succeeding afterwards. -/
def demoFailTwice : Nat → Request → Except String Response := fun i _ =>
  if i < 2 then .error "boom" else .ok demoOkResponse

/-! ## Retry loop characterization lemmas -/

theorem retryLoop_ok {ε : Type} (next : Nat → Request → Except ε Response)
    (toZ : ε → ZError) (snap : RetrySnapshot) (attempts remaining : Nat)
    (trace : List Request) (r : Response)
    (h : next attempts snap.buildRequest = .ok r) :
    retryLoop next toZ snap attempts remaining trace
      = (.ok r, trace ++ [snap.buildRequest]) := by
  rw [retryLoop.eq_def]
  simp only [h]

theorem retryLoop_fail_then_ok {ε : Type} (k : Nat) :
    ∀ (next : Nat → Request → Except ε Response) (toZ : ε → ZError)
      (snap : RetrySnapshot) (errs : Nat → ε) (r : Response)
      (attempts remaining : Nat) (trace : List Request),
    (∀ i, attempts ≤ i → i < attempts + k → next i snap.buildRequest = .error (errs i)) →
    next (attempts + k) snap.buildRequest = .ok r →
    k ≤ remaining →
    retryLoop next toZ snap attempts remaining trace
      = (.ok r, trace ++ List.replicate (k + 1) snap.buildRequest) := by
  induction k with
  | zero =>
    intro next toZ snap errs r attempts remaining trace _ hok _
    rw [Nat.add_zero] at hok
    rw [retryLoop_ok next toZ snap attempts remaining trace r hok]
    rfl
  | succ k ih =>
    intro next toZ snap errs r attempts remaining trace hf hok hk
    have herr : next attempts snap.buildRequest = .error (errs attempts) :=
      hf attempts le_rfl (by omega)
    cases remaining with
    | zero => omega
    | succ remaining' =>
      have step := ih next toZ snap errs r (attempts + 1) remaining' (trace ++ [snap.buildRequest])
        (fun i hi₁ hi₂ => hf i (by omega) (by omega))
        (by rw [show attempts + 1 + k = attempts + (k + 1) by omega]; exact hok)
        (by omega)
      rw [retryLoop.eq_def]
      simp only [herr]
      rw [step, List.append_assoc]
      rfl

theorem retryLoop_all_fail {ε : Type} (remaining : Nat) :
    ∀ (next : Nat → Request → Except ε Response) (toZ : ε → ZError)
      (snap : RetrySnapshot) (errs : Nat → ε) (attempts : Nat) (trace : List Request),
    (∀ i, attempts ≤ i → i ≤ attempts + remaining → next i snap.buildRequest = .error (errs i)) →
    retryLoop next toZ snap attempts remaining trace
      = (.error (toZ (errs (attempts + remaining))),
         trace ++ List.replicate (remaining + 1) snap.buildRequest) := by
  induction remaining with
  | zero =>
    intro next toZ snap errs attempts trace hf
    rw [retryLoop.eq_def]
    simp only [hf attempts le_rfl (by omega)]
    simp
  | succ remaining' ih =>
    intro next toZ snap errs attempts trace hf
    have step := ih next toZ snap errs (attempts + 1) (trace ++ [snap.buildRequest])
      (fun i hi₁ hi₂ => hf i (by omega) (by omega))
    rw [retryLoop.eq_def]
    simp only [hf attempts le_rfl (by omega)]
    rw [step, List.append_assoc,
      show attempts + 1 + remaining' = attempts + (remaining' + 1) by omega]
    rfl

/-! ## Claim C5: retry semantics -/

/-- C5: `Retry::respond` returns any response received from the inner endpoint
    immediately (including 4xx/5xx statuses) without retrying; on an inner
    transport error it rebuilds the request from the initial snapshot and
    retries, so for N consecutive failures followed by a success the inner
    endpoint is invoked exactly N+1 times when `max_retries >= N`, and under
    persistent failure it is invoked exactly `max_retries + 1` times and the
    last error is returned. (The issued-request trace records the inner
    invocations: every entry is the request rebuilt from the snapshot.) -/
theorem retry_attempt_counts {ε : Type} (next : Nat → Request → Except ε Response)
    (toZ : ε → ZError) (maxRetries : Nat) (request : Request)
    (snap : RetrySnapshot) (request' : Request)
    (hsnap : RetrySnapshot.fromRequest request = .ok (snap, request'))
    (errs : Nat → ε) (r : Response) (N : Nat) :
    (next 0 snap.buildRequest = .ok r →
      Retry.respond next toZ maxRetries request = (.ok r, [snap.buildRequest]))
    ∧ ((∀ i, i < N → next i snap.buildRequest = .error (errs i)) →
        next N snap.buildRequest = .ok r → N ≤ maxRetries →
        Retry.respond next toZ maxRetries request
          = (.ok r, List.replicate (N + 1) snap.buildRequest))
    ∧ ((∀ i, i ≤ maxRetries → next i snap.buildRequest = .error (errs i)) →
        Retry.respond next toZ maxRetries request
          = (.error (toZ (errs maxRetries)),
             List.replicate (maxRetries + 1) snap.buildRequest)) := by
  refine ⟨?_, ?_, ?_⟩
  · intro hok
    simp only [Retry.respond, hsnap]
    rw [retryLoop_ok next toZ snap 0 maxRetries [] r hok]
    rfl
  · intro hf hok hN
    simp only [Retry.respond, hsnap]
    rw [retryLoop_fail_then_ok N next toZ snap errs r 0 maxRetries []
      (fun i hi₁ hi₂ => hf i (by omega)) (by simpa using hok) hN]
    rfl
  · intro hf
    simp only [Retry.respond, hsnap]
    rw [retryLoop_all_fail maxRetries next toZ snap errs 0 []
      (fun i hi₁ hi₂ => hf i (by omega))]
    simp only [Nat.zero_add, List.nil_append]

/-- Witness for C5: two transport failures then a success against
    `max_retries = 3` make exactly three inner calls and return the success. -/
theorem retry_attempt_counts_witness :
    Retry.respond demoFailTwice ZError.transport 3 demoPostRequest
      = (.ok demoOkResponse, List.replicate 3 demoRetrySnap.buildRequest) :=
  (retry_attempt_counts demoFailTwice ZError.transport 3 demoPostRequest
      demoRetrySnap { demoPostRequest with body := .consumed } (by rfl)
      (fun _ => "boom") demoOkResponse 2).2.1
    (fun i hi => by
      match i with
      | 0 => rfl
      | 1 => rfl
      | n + 2 => exact absurd hi (by omega))
    (by rfl) (by norm_num)

/-! ## Redirect fixtures and characterization lemmas -/

/-- URL operations for the two demo hosts. -/
def demoOps : UrlOps :=
  { parseUrl := fun s =>
      if s = "http://origin.example/submit" then
        some { host := some "origin.example", str := "http://origin.example/submit" }
      else if s = "http://origin.example/next" then
        some { host := some "origin.example", str := "http://origin.example/next" }
      else if s = "http://elsewhere.example/x" then
        some { host := some "elsewhere.example", str := "http://elsewhere.example/x" }
      else none
    joinUrl := fun _ _ => none
    uriOk := fun _ => true }

/-- A backend answering the first call with a redirect of the given status to
    the same host, then 200. -/
def demoRedirectScript (status : Nat) : Nat → Request → Except Unit Response :=
  fun i _ =>
    if i = 0 then
      .ok { status := status, headers := [("location", "http://origin.example/next")],
            body := .empty }
    else .ok demoOkResponse

/-- A backend redirecting first to another host, then back to the original
    host, then answering 200. -/
def demoCrossHostScript : Nat → Request → Except Unit Response :=
  fun i _ =>
    if i = 0 then
      .ok { status := 302, headers := [("location", "http://elsewhere.example/x")],
            body := .empty }
    else if i = 1 then
      .ok { status := 302, headers := [("location", "http://origin.example/next")],
            body := .empty }
    else .ok demoOkResponse

/-- A GET request against the demo origin. -/
def demoGetRequest : Request :=
  { method := .get
    uri := "http://origin.example/submit"
    headers := [("authorization", "Bearer tok")]
    body := .empty }

/-- A successful `build_request` yields the method it was given, and an empty
    body for GET/HEAD or the snapshot bytes otherwise. -/
theorem buildRequest_ok_shape (ops : UrlOps) (snapshot : RedirectSnapshot)
    (method : Method) (url : Url) (headers : Headers) (suppressAuth : Bool)
    (request : Request)
    (h : snapshot.buildRequest ops method url headers suppressAuth = .ok request) :
    request.method = method
    ∧ request.body
        = (if method = .get ∨ method = .head then Body.empty
           else Body.bytes snapshot.body) := by
  unfold RedirectSnapshot.buildRequest at h
  by_cases hu : ops.uriOk url.str
  · rw [if_pos hu] at h
    cases h
    exact ⟨rfl, rfl⟩
  · rw [if_neg hu] at h
    cases h

/-- A request built with `suppress_auth` set carries no `Authorization` or
    `Cookie` header. -/
theorem buildRequest_suppressed (ops : UrlOps) (snapshot : RedirectSnapshot)
    (method : Method) (url : Url) (headers : Headers) (request : Request)
    (h : snapshot.buildRequest ops method url headers true = .ok request) :
    Headers.get request.headers "authorization" = none
    ∧ Headers.get request.headers "cookie" = none := by
  unfold RedirectSnapshot.buildRequest at h
  by_cases hu : ops.uriOk url.str
  · rw [if_pos hu] at h
    cases h
    simp only [if_true]
    refine ⟨?_, ?_⟩
    · unfold suppressAuthHeader
      exact Headers.get_remove_self _ _
    · unfold suppressAuthHeader
      rw [Headers.get_remove_ne _ _ _ (by decide)]
      exact Headers.get_remove_self _ _
  · rw [if_neg hu] at h
    cases h

/-- Once the stripping flag is set at a loop entry, every request issued from
    that point on lacks `Authorization` and `Cookie` (the flag is never
    cleared, and every rebuild suppresses the headers). -/
theorem followLoop_stripped {ε : Type} (ops : UrlOps)
    (next : Nat → Request → Except ε Response) (snapshot : RedirectSnapshot)
    (initialHeaders : Headers) :
    ∀ (remaining : Nat) (method : Method) (url : Url) (headers : Headers)
      (trace : List Request) (r : Request),
      r ∈ (followLoop ops next snapshot initialHeaders method url headers true
            remaining trace).2 →
      r ∈ trace
      ∨ (Headers.get r.headers "authorization" = none
         ∧ Headers.get r.headers "cookie" = none) := by
  intro remaining
  induction remaining with
  | zero =>
    intro method url headers trace r hr
    rw [followLoop.eq_def] at hr
    cases hb : snapshot.buildRequest ops method url headers true with
    | error e =>
      rw [hb] at hr
      exact .inl hr
    | ok request =>
      have hreq := buildRequest_suppressed ops snapshot method url headers request hb
      rw [hb] at hr
      simp only at hr
      have hmem : r ∈ trace ++ [request] := by
        split at hr
        · exact hr
        · split at hr
          · exact hr
          · exact hr
      rcases List.mem_append.mp hmem with hmem | hmem
      · exact .inl hmem
      · rcases List.mem_singleton.mp hmem with rfl
        exact .inr hreq
  | succ remaining' ih =>
    intro method url headers trace r hr
    rw [followLoop.eq_def] at hr
    cases hb : snapshot.buildRequest ops method url headers true with
    | error e =>
      rw [hb] at hr
      exact .inl hr
    | ok request =>
      have hreq := buildRequest_suppressed ops snapshot method url headers request hb
      have hpush : r ∈ trace ++ [request] →
          r ∈ trace
          ∨ (Headers.get r.headers "authorization" = none
             ∧ Headers.get r.headers "cookie" = none) := by
        intro hmem
        rcases List.mem_append.mp hmem with hmem | hmem
        · exact .inl hmem
        · rcases List.mem_singleton.mp hmem with rfl
          exact .inr hreq
      rw [hb] at hr
      simp only at hr
      split at hr
      · exact hpush hr
      · split at hr
        · exact hpush hr
        · split at hr
          · exact hpush hr
          · split at hr
            · exact hpush hr
            · simp only [Bool.true_or] at hr
              rcases ih _ _ _ _ r hr with hmem | hprop
              · exact hpush hmem
              · exact .inr hprop

/-- Pointwise characterization of the per-hop header transition: `Host` is
    always gone, `Content-Length`/`Content-Type` are gone exactly when the
    next method drops the body, `Authorization`/`Cookie` are gone exactly when
    stripping is in effect, and every other name keeps its original value. -/
theorem redirectHeaders_get (initial : Headers) (nm : Method) (stripped : Bool)
    (name : String) :
    Headers.get (redirectHeaders initial nm stripped) name =
      if name = "host" then none
      else if (nm = .get ∨ nm = .head) ∧ (name = "content-length" ∨ name = "content-type") then
        none
      else if stripped = true ∧ (name = "authorization" ∨ name = "cookie") then none
      else Headers.get initial name := by
  simp only [redirectHeaders]
  by_cases hd : nm = Method.get ∨ nm = Method.head
  · rw [if_pos hd]
    cases stripped
    · rw [if_neg (by decide)]
      by_cases h1 : name = "host"
      · subst h1
        rw [if_pos rfl, Headers.get_remove_ne _ _ _ (by decide),
          Headers.get_remove_ne _ _ _ (by decide), Headers.get_remove_self]
      · rw [if_neg h1]
        by_cases h2 : name = "content-length"
        · subst h2
          rw [if_pos ⟨hd, Or.inl rfl⟩, Headers.get_remove_ne _ _ _ (by decide),
            Headers.get_remove_self]
        · by_cases h3 : name = "content-type"
          · subst h3
            rw [if_pos ⟨hd, Or.inr rfl⟩, Headers.get_remove_self]
          · rw [if_neg (fun hc => hc.2.elim h2 h3), if_neg (by simp),
              Headers.get_remove_ne _ _ _ h3, Headers.get_remove_ne _ _ _ h2,
              Headers.get_remove_ne _ _ _ h1]
    · rw [if_pos rfl]
      by_cases h1 : name = "host"
      · subst h1
        rw [if_pos rfl, Headers.get_remove_ne _ _ _ (by decide),
          Headers.get_remove_ne _ _ _ (by decide), Headers.get_remove_ne _ _ _ (by decide),
          Headers.get_remove_ne _ _ _ (by decide), Headers.get_remove_self]
      · rw [if_neg h1]
        by_cases h2 : name = "content-length"
        · subst h2
          rw [if_pos ⟨hd, Or.inl rfl⟩, Headers.get_remove_ne _ _ _ (by decide),
            Headers.get_remove_ne _ _ _ (by decide), Headers.get_remove_ne _ _ _ (by decide),
            Headers.get_remove_self]
        · by_cases h3 : name = "content-type"
          · subst h3
            rw [if_pos ⟨hd, Or.inr rfl⟩, Headers.get_remove_ne _ _ _ (by decide),
              Headers.get_remove_ne _ _ _ (by decide), Headers.get_remove_self]
          · rw [if_neg (fun hc => hc.2.elim h2 h3)]
            by_cases h4 : name = "authorization"
            · subst h4
              rw [if_pos ⟨rfl, Or.inl rfl⟩, Headers.get_remove_ne _ _ _ (by decide),
                Headers.get_remove_self]
            · by_cases h5 : name = "cookie"
              · subst h5
                rw [if_pos ⟨rfl, Or.inr rfl⟩, Headers.get_remove_self]
              · rw [if_neg (fun hc => hc.2.elim h4 h5),
                  Headers.get_remove_ne _ _ _ h5, Headers.get_remove_ne _ _ _ h4,
                  Headers.get_remove_ne _ _ _ h3, Headers.get_remove_ne _ _ _ h2,
                  Headers.get_remove_ne _ _ _ h1]
  · rw [if_neg hd]
    cases stripped
    · rw [if_neg (by decide)]
      by_cases h1 : name = "host"
      · subst h1
        rw [if_pos rfl, Headers.get_remove_self]
      · rw [if_neg h1, if_neg (fun hc => hd hc.1), if_neg (by simp),
          Headers.get_remove_ne _ _ _ h1]
    · rw [if_pos rfl]
      by_cases h1 : name = "host"
      · subst h1
        rw [if_pos rfl, Headers.get_remove_ne _ _ _ (by decide),
          Headers.get_remove_ne _ _ _ (by decide), Headers.get_remove_self]
      · rw [if_neg h1, if_neg (fun hc => hd hc.1)]
        by_cases h4 : name = "authorization"
        · subst h4
          rw [if_pos ⟨rfl, Or.inl rfl⟩, Headers.get_remove_ne _ _ _ (by decide),
            Headers.get_remove_self]
        · by_cases h5 : name = "cookie"
          · subst h5
            rw [if_pos ⟨rfl, Or.inr rfl⟩, Headers.get_remove_self]
          · rw [if_neg (fun hc => hc.2.elim h4 h5),
              Headers.get_remove_ne _ _ _ h5, Headers.get_remove_ne _ _ _ h4,
              Headers.get_remove_ne _ _ _ h1]

/-! ## Claim C3: redirect header stripping -/

/-- C3 counterexample: the claim says `Content-Length` is always removed on a
    redirect hop, but on a 307 (method and body preserved) the code removes it
    only when the body is dropped — the second issued request still carries
    `content-length: 3`. -/
theorem redirect_content_length_retained_cex :
    ((FollowRedirect.respond demoOps (demoRedirectScript 307) demoPostRequest).2.get? 1).map
        (fun r => Headers.get r.headers "content-length")
      = some (some "3")
    ∧ some (some "3") ≠ (some none : Option (Option String)) := by
  exact ⟨by decide, by decide⟩

/-- C3 (amended): on every redirect hop the forwarded header set is derived
    from the original request's headers with `Host` always removed, and
    `Content-Length`/`Content-Type` removed exactly when the body is dropped
    because the method downgraded to GET/HEAD (they are retained otherwise);
    once any hop's target host differs from the current host, `Authorization`
    and `Cookie` are removed on that hop and on every subsequent hop, even if
    a later hop's host equals the original host again (the stripping flag is
    monotone, and every request issued after it is set lacks both headers). -/
theorem redirect_header_transition (initial : Headers) (nm : Method)
    (stripped : Bool) :
    (Headers.get (redirectHeaders initial nm stripped) "host" = none)
    ∧ ((nm = .get ∨ nm = .head) →
        Headers.get (redirectHeaders initial nm stripped) "content-length" = none
        ∧ Headers.get (redirectHeaders initial nm stripped) "content-type" = none)
    ∧ (¬(nm = .get ∨ nm = .head) →
        Headers.get (redirectHeaders initial nm stripped) "content-length"
          = Headers.get initial "content-length"
        ∧ Headers.get (redirectHeaders initial nm stripped) "content-type"
          = Headers.get initial "content-type")
    ∧ (stripped = true →
        Headers.get (redirectHeaders initial nm stripped) "authorization" = none
        ∧ Headers.get (redirectHeaders initial nm stripped) "cookie" = none)
    ∧ (stripped = false →
        Headers.get (redirectHeaders initial nm stripped) "authorization"
          = Headers.get initial "authorization"
        ∧ Headers.get (redirectHeaders initial nm stripped) "cookie"
          = Headers.get initial "cookie")
    ∧ (∀ name, name ≠ "host" → name ≠ "content-length" → name ≠ "content-type" →
        name ≠ "authorization" → name ≠ "cookie" →
        Headers.get (redirectHeaders initial nm stripped) name = Headers.get initial name)
    ∧ (∀ {ε : Type} (ops : UrlOps) (next : Nat → Request → Except ε Response)
        (snapshot : RedirectSnapshot) (initialHeaders : Headers) (remaining : Nat)
        (method : Method) (url : Url) (headers : Headers) (trace : List Request)
        (r : Request),
        r ∈ (followLoop ops next snapshot initialHeaders method url headers true
              remaining trace).2 →
        r ∈ trace
        ∨ (Headers.get r.headers "authorization" = none
           ∧ Headers.get r.headers "cookie" = none))
    ∧ ((FollowRedirect.respond demoOps demoCrossHostScript demoPostRequest).2.map
          (fun r => (Headers.get r.headers "authorization", Headers.get r.headers "cookie"))
        = [(some "Bearer tok", some "k=v"), (none, none), (none, none)]) := by
  refine ⟨?_, ?_, ?_, ?_, ?_, ?_, ?_, by decide⟩
  · rw [redirectHeaders_get, if_pos rfl]
  · intro hd
    constructor
    · rw [redirectHeaders_get, if_neg (by decide), if_pos ⟨hd, Or.inl rfl⟩]
    · rw [redirectHeaders_get, if_neg (by decide), if_pos ⟨hd, Or.inr rfl⟩]
  · intro hd
    constructor
    · rw [redirectHeaders_get, if_neg (by decide), if_neg (fun hc => hd hc.1),
        if_neg (fun hc => by rcases hc.2 with hc' | hc' <;> exact absurd hc' (by decide))]
    · rw [redirectHeaders_get, if_neg (by decide), if_neg (fun hc => hd hc.1),
        if_neg (fun hc => by rcases hc.2 with hc' | hc' <;> exact absurd hc' (by decide))]
  · intro hs
    subst hs
    constructor
    · rw [redirectHeaders_get, if_neg (by decide),
        if_neg (fun hc => by rcases hc.2 with hc' | hc' <;> exact absurd hc' (by decide)),
        if_pos ⟨rfl, Or.inl rfl⟩]
    · rw [redirectHeaders_get, if_neg (by decide),
        if_neg (fun hc => by rcases hc.2 with hc' | hc' <;> exact absurd hc' (by decide)),
        if_pos ⟨rfl, Or.inr rfl⟩]
  · intro hs
    subst hs
    constructor
    · rw [redirectHeaders_get, if_neg (by decide),
        if_neg (fun hc => by rcases hc.2 with hc' | hc' <;> exact absurd hc' (by decide)),
        if_neg (by simp)]
    · rw [redirectHeaders_get, if_neg (by decide),
        if_neg (fun hc => by rcases hc.2 with hc' | hc' <;> exact absurd hc' (by decide)),
        if_neg (by simp)]
  · intro name h1 h2 h3 h4 h5
    rw [redirectHeaders_get, if_neg h1, if_neg (fun hc => hc.2.elim h2 h3),
      if_neg (fun hc => hc.2.elim h4 h5)]
  · intro ε ops next snapshot initialHeaders remaining method url headers trace r hr
    exact followLoop_stripped ops next snapshot initialHeaders remaining method url
      headers trace r hr

/-- Witness for C3: the transition for a 307-preserved POST keeps
    `Content-Length`/`Content-Type` and (unstripped) `Authorization`, while a
    stripped transition removes `Authorization` and `Cookie`. -/
theorem redirect_header_transition_witness :
    Headers.get (redirectHeaders demoPostRequest.headers .post false) "content-length"
      = Headers.get demoPostRequest.headers "content-length"
    ∧ Headers.get (redirectHeaders demoPostRequest.headers .post true) "authorization" = none :=
  ⟨((redirect_header_transition demoPostRequest.headers .post false).2.2.1
      (by rintro (h | h) <;> cases h)).1,
    ((redirect_header_transition demoPostRequest.headers .post true).2.2.2.1 rfl).1⟩

/-! ## Claim C4: redirect method and body transitions -/

/-- C4: on every redirect hop the next method is GET for a 303; GET for a
    301/302 when the current method is neither GET nor HEAD; otherwise the
    current method (in particular 307/308 preserve it); and the rebuilt
    request's body is empty when the next method is GET or HEAD and otherwise
    equals the snapshotted body bytes. Concrete runs: a POST through a 307 is
    replayed as POST with the original body, through a 303 or 302 as GET with
    no body, and a GET through a 301 stays GET. -/
theorem redirect_method_and_body_rule (status : Nat) (current : Method)
    (ops : UrlOps) (snapshot : RedirectSnapshot) (url : Url) (headers : Headers)
    (suppressAuth : Bool) :
    (nextMethodFor 303 current = .get)
    ∧ ((status = 301 ∨ status = 302) → current ≠ .get → current ≠ .head →
        nextMethodFor status current = .get)
    ∧ ((status = 301 ∨ status = 302) → (current = .get ∨ current = .head) →
        nextMethodFor status current = current)
    ∧ ((status = 307 ∨ status = 308) → nextMethodFor status current = current)
    ∧ (status ≠ 303 → status ≠ 301 → status ≠ 302 → nextMethodFor status current = current)
    ∧ (ops.uriOk url.str = true →
        ∃ request, snapshot.buildRequest ops current url headers suppressAuth = .ok request
          ∧ request.method = current
          ∧ request.body = (if current = .get ∨ current = .head then Body.empty
              else Body.bytes snapshot.body))
    ∧ ((FollowRedirect.respond demoOps (demoRedirectScript 307) demoPostRequest).2.map
          (fun r => (r.method, r.body))
        = [(.post, .bytes [1, 2, 3]), (.post, .bytes [1, 2, 3])])
    ∧ ((FollowRedirect.respond demoOps (demoRedirectScript 303) demoPostRequest).2.map
          (fun r => (r.method, r.body))
        = [(.post, .bytes [1, 2, 3]), (.get, .empty)])
    ∧ ((FollowRedirect.respond demoOps (demoRedirectScript 302) demoPostRequest).2.map
          (fun r => (r.method, r.body))
        = [(.post, .bytes [1, 2, 3]), (.get, .empty)])
    ∧ ((FollowRedirect.respond demoOps (demoRedirectScript 301) demoGetRequest).2.map
          (fun r => (r.method, r.body))
        = [(.get, .empty), (.get, .empty)]) := by
  refine ⟨?_, ?_, ?_, ?_, ?_, ?_, by decide, by decide, by decide, by decide⟩
  · rfl
  · intro hs hg hh
    rcases hs with hs | hs <;> subst hs <;>
      simp [nextMethodFor, hg, hh]
  · intro hs hm
    rcases hs with hs | hs <;> subst hs <;>
      rcases hm with hm | hm <;> subst hm <;> rfl
  · intro hs
    rcases hs with hs | hs <;> subst hs <;> simp [nextMethodFor]
  · intro h303 h301 h302
    unfold nextMethodFor
    rw [if_neg h303, if_neg ?_]
    rintro ⟨hs | hs, -⟩
    · exact h301 hs
    · exact h302 hs
  · intro hu
    cases hb : snapshot.buildRequest ops current url headers suppressAuth with
    | error e =>
      unfold RedirectSnapshot.buildRequest at hb
      rw [if_pos hu] at hb
      cases hb
    | ok request =>
      obtain ⟨hm, hbod⟩ :=
        buildRequest_ok_shape ops snapshot current url headers suppressAuth request hb
      exact ⟨request, rfl, hm, hbod⟩

/-- Witness for C4: the body rule evaluated for a POST against the demo URL
    operations, discharging the `uriOk` hypothesis. -/
theorem redirect_method_and_body_rule_witness :
    nextMethodFor 303 .post = .get
    ∧ ∃ request,
        RedirectSnapshot.buildRequest demoOps { body := [1, 2, 3] } .post
            { host := some "origin.example", str := "http://origin.example/next" }
            [] false = .ok request
          ∧ request.method = .post
          ∧ request.body = (if Method.post = .get ∨ Method.post = .head then Body.empty
              else Body.bytes [1, 2, 3]) :=
  ⟨(redirect_method_and_body_rule 307 .post demoOps { body := [1, 2, 3] }
      { host := some "origin.example", str := "http://origin.example/next" } [] false).1,
    (redirect_method_and_body_rule 307 .post demoOps { body := [1, 2, 3] }
      { host := some "origin.example", str := "http://origin.example/next" } [] false).2.2.2.2.2.1
      (by rfl)⟩

/-! ## Trace-shape lemmas for the snapshot claims -/

theorem retryLoop_trace_mem {ε : Type} (next : Nat → Request → Except ε Response)
    (toZ : ε → ZError) (snapshot : RetrySnapshot) :
    ∀ (remaining attempts : Nat) (trace : List Request) (r : Request),
      r ∈ (retryLoop next toZ snapshot attempts remaining trace).2 →
      r ∈ trace ∨ r = snapshot.buildRequest := by
  intro remaining
  induction remaining with
  | zero =>
    intro attempts trace r hr
    rw [retryLoop.eq_def] at hr
    dsimp only at hr
    have hmem : r ∈ trace ++ [snapshot.buildRequest] := by
      split at hr
      · exact hr
      · exact hr
    rcases List.mem_append.mp hmem with hmem | hmem
    · exact .inl hmem
    · exact .inr (List.mem_singleton.mp hmem)
  | succ remaining' ih =>
    intro attempts trace r hr
    rw [retryLoop.eq_def] at hr
    dsimp only at hr
    have hsplit : r ∈ trace ++ [snapshot.buildRequest] ∨ r = snapshot.buildRequest := by
      split at hr
      · exact .inl hr
      · rcases ih (attempts + 1) (trace ++ [snapshot.buildRequest]) r hr with hmem | heq
        · exact .inl hmem
        · exact .inr heq
    rcases hsplit with hmem | heq
    · rcases List.mem_append.mp hmem with hmem | hmem
      · exact .inl hmem
      · exact .inr (List.mem_singleton.mp hmem)
    · exact .inr heq

theorem followLoop_trace_body {ε : Type} (ops : UrlOps)
    (next : Nat → Request → Except ε Response) (snapshot : RedirectSnapshot)
    (initialHeaders : Headers) :
    ∀ (remaining : Nat) (method : Method) (url : Url) (headers : Headers)
      (authStripped : Bool) (trace : List Request) (r : Request),
      r ∈ (followLoop ops next snapshot initialHeaders method url headers
            authStripped remaining trace).2 →
      r ∈ trace ∨ r.body = Body.empty ∨ r.body = Body.bytes snapshot.body := by
  intro remaining
  induction remaining with
  | zero =>
    intro method url headers authStripped trace r hr
    rw [followLoop.eq_def] at hr
    cases hb : snapshot.buildRequest ops method url headers authStripped with
    | error e =>
      rw [hb] at hr
      exact .inl hr
    | ok request =>
      have hshape := (buildRequest_ok_shape ops snapshot method url headers
        authStripped request hb).2
      rw [hb] at hr
      simp only at hr
      have hmem : r ∈ trace ++ [request] := by
        split at hr
        · exact hr
        · split at hr
          · exact hr
          · exact hr
      rcases List.mem_append.mp hmem with hmem | hmem
      · exact .inl hmem
      · rcases List.mem_singleton.mp hmem with rfl
        rw [hshape]
        by_cases hm : method = Method.get ∨ method = Method.head
        · rw [if_pos hm]; exact .inr (.inl rfl)
        · rw [if_neg hm]; exact .inr (.inr rfl)
  | succ remaining' ih =>
    intro method url headers authStripped trace r hr
    rw [followLoop.eq_def] at hr
    cases hb : snapshot.buildRequest ops method url headers authStripped with
    | error e =>
      rw [hb] at hr
      exact .inl hr
    | ok request =>
      have hshape := (buildRequest_ok_shape ops snapshot method url headers
        authStripped request hb).2
      have hpush : r ∈ trace ++ [request] →
          r ∈ trace ∨ r.body = Body.empty ∨ r.body = Body.bytes snapshot.body := by
        intro hmem
        rcases List.mem_append.mp hmem with hmem | hmem
        · exact .inl hmem
        · rcases List.mem_singleton.mp hmem with rfl
          rw [hshape]
          by_cases hm : method = Method.get ∨ method = Method.head
          · rw [if_pos hm]; exact .inr (.inl rfl)
          · rw [if_neg hm]; exact .inr (.inr rfl)
      rw [hb] at hr
      simp only at hr
      split at hr
      · exact hpush hr
      · split at hr
        · exact hpush hr
        · split at hr
          · exact hpush hr
          · split at hr
            · exact hpush hr
            · rcases ih _ _ _ _ _ r hr with hmem | hshape'
              · exact hpush hmem
              · exact .inr hshape'

/-! ## Claim C10: body materialization and consumed-body failure -/

/-- C10: both `Retry::respond` and `FollowRedirect::respond` materialize the
    request body into an in-memory byte snapshot before the first inner call —
    every request the inner endpoint ever sees carries a buffered (or empty)
    body, never a stream — and when the body was already consumed the call
    fails with `InvalidRequest` ("request body already consumed") without the
    inner endpoint being invoked (the trace of inner calls is empty). -/
theorem body_snapshot_and_consumed_error {ε : Type}
    (next : Nat → Request → Except ε Response) (toZ : ε → ZError)
    (ops : UrlOps) (maxRetries : Nat) (request : Request) :
    (request.body = .consumed →
      Retry.respond next toZ maxRetries request
        = (.error (.invalidRequest "request body already consumed"), [])
      ∧ FollowRedirect.respond ops next request
        = (.error (.requestBuildError (.invalidRequest "request body already consumed")), []))
    ∧ (∀ r ∈ (Retry.respond next toZ maxRetries request).2,
        ∃ bytes, r.body = Body.bytes bytes)
    ∧ (∀ r ∈ (FollowRedirect.respond ops next request).2,
        r.body = Body.empty ∨ ∃ bytes, r.body = Body.bytes bytes) := by
  refine ⟨?_, ?_, ?_⟩
  · intro hbody
    constructor
    · simp only [Retry.respond, RetrySnapshot.fromRequest, hbody, Body.take]
    · simp only [FollowRedirect.respond, RedirectSnapshot.fromRequest, hbody, Body.take]
  · intro r hr
    simp only [Retry.respond] at hr
    cases hs : RetrySnapshot.fromRequest request with
    | error e =>
      rw [hs] at hr
      cases hr
    | ok pair =>
      rw [hs] at hr
      rcases retryLoop_trace_mem next toZ pair.1 maxRetries 0 [] r hr with hmem | heq
      · cases hmem
      · exact ⟨pair.1.body, by rw [heq]; rfl⟩
  · intro r hr
    simp only [FollowRedirect.respond] at hr
    cases hs : RedirectSnapshot.fromRequest request with
    | error e =>
      rw [hs] at hr
      cases hr
    | ok pair =>
      rw [hs] at hr
      cases hu : ops.parseUrl request.uri with
      | none =>
        rw [hu] at hr
        cases hr
      | some url =>
        rw [hu] at hr
        rcases followLoop_trace_body ops next pair.1 request.headers maxRedirects
            request.method url request.headers false [] r hr with hmem | hshape
        · cases hmem
        · rcases hshape with he | hb
          · exact .inl he
          · exact .inr ⟨pair.1.body, hb⟩

/-- Witness for C10: a request whose body was already consumed makes Retry
    fail with the `InvalidRequest` error and an empty inner-call trace. -/
theorem body_snapshot_and_consumed_error_witness :
    Retry.respond (fun _ _ => (.ok demoOkResponse : Except Unit Response))
        (fun _ => ZError.timeout) 1 { demoPostRequest with body := .consumed }
      = (.error (.invalidRequest "request body already consumed"), []) :=
  ((body_snapshot_and_consumed_error (fun _ _ => (.ok demoOkResponse : Except Unit Response))
      (fun _ => ZError.timeout) demoOps 1
      { demoPostRequest with body := .consumed }).1 rfl).1

/-! ## Cache fixtures -/

/-- A date parser that parses nothing (no `Expires` headers in play). -/
def noDate : String → Option Nat := fun _ => none

/-- The cache key used by the cache fixtures. -/
def demoCacheUri : String := "http://origin.example/data"

/-- A plain GET request against the demo cache URI. -/
def demoCacheRequest : Request :=
  { method := .get, uri := demoCacheUri, headers := [], body := .empty }

/-- A backend answering 200 `"hello"` with `cache-control: max-age=60`. -/
def helloNext : Request → Except Unit Response := fun _ =>
  .ok { status := 200, headers := [("cache-control", "max-age=60")],
        body := .bytes [104, 101, 108, 108, 111] }

/-- The entry the cache stores for `helloNext`'s response at instant 0. -/
def demoStoredEntry : CachedResponse :=
  { status := 200
    headers := [("cache-control", "max-age=60")]
    body := [104, 101, 108, 108, 111]
    stored_at := 0
    freshness := some 60
    must_revalidate := false
    etag := none
    last_modified := none }

/-! ## Claim C1: fresh cache hits -/

/-- C1: for a GET request without request-side `no-cache`/`no-store`, when the
    cache holds an entry for the request URI whose `must_revalidate` flag is
    unset and which is still fresh, `Cache::handle` returns a response
    synthesized from the entry (same status, headers and body bytes, with the
    `Age` header set to the seconds since `stored_at`), the entry table is
    untouched and the inner endpoint is not invoked — and concretely, two
    identical GETs against a `max-age=60` backend within the window invoke the
    backend exactly once and serve the same body twice. -/
theorem cache_fresh_hit_serves_cached_entry {ε : Type}
    (parse : String → Option Nat) (sysNow : Nat)
    (next : Request → Except ε Response) (entries : Entries) (request : Request)
    (now : Nat) (entry : CachedResponse)
    (hmethod : request.method = .get)
    (hnostore : (CacheControl.fromHeaderMap request.headers).no_store = false)
    (hnocache : (CacheControl.fromHeaderMap request.headers).no_cache = false)
    (hentry : Entries.get entries request.uri = some entry)
    (hmr : entry.must_revalidate = false)
    (hfresh : entry.isFresh now = true) :
    Cache.handle parse sysNow entries request now next
      = { result := .ok (entry.toResponse now), entries := entries,
          innerCalled := false, innerRequest := none }
    ∧ (entry.toResponse now).status = entry.status
    ∧ (entry.toResponse now).body = .bytes entry.body
    ∧ (entry.toResponse now).headers
        = Headers.insert entry.headers "age" (toString (now - entry.stored_at))
    ∧ Headers.get (entry.toResponse now).headers "age"
        = some (toString (now - entry.stored_at))
    ∧ ((Cache.handle noDate 0 [] demoCacheRequest 0 helloNext).innerCalled = true
        ∧ (Cache.handle noDate 0
            (Cache.handle noDate 0 [] demoCacheRequest 0 helloNext).entries
            demoCacheRequest 30 helloNext).innerCalled = false
        ∧ (Cache.handle noDate 0 [] demoCacheRequest 0 helloNext).result
            = .ok { status := 200,
                    headers := [("cache-control", "max-age=60"), ("age", "0")],
                    body := .bytes [104, 101, 108, 108, 111] }
        ∧ (Cache.handle noDate 0
            (Cache.handle noDate 0 [] demoCacheRequest 0 helloNext).entries
            demoCacheRequest 30 helloNext).result
            = .ok { status := 200,
                    headers := [("cache-control", "max-age=60"), ("age", "30")],
                    body := .bytes [104, 101, 108, 108, 111] }) := by
  have hkey : cacheKey request = some request.uri := by
    unfold cacheKey
    rw [hmethod, if_pos rfl]
  have hfl : freshLookup entries request.uri
      (CacheControl.fromHeaderMap request.headers) now = some entry := by
    unfold freshLookup
    rw [hentry]
    dsimp only
    simp only [hnocache, hmr, hfresh]
    rfl
  refine ⟨?_, rfl, rfl, rfl, ?_, by decide, by decide, by decide, by decide⟩
  · unfold Cache.handle
    rw [hkey]
    dsimp only
    simp only [hnostore]
    rw [if_neg (by decide)]
    rw [hfl]
  · exact Headers.get_insert_self _ _ _

/-- Witness for C1: the fresh-hit theorem applied to the stored `max-age=60`
    entry at instant 30. -/
theorem cache_fresh_hit_witness :
    Cache.handle noDate 0 [(demoCacheUri, demoStoredEntry)] demoCacheRequest 30 helloNext
      = { result := .ok (demoStoredEntry.toResponse 30),
          entries := [(demoCacheUri, demoStoredEntry)],
          innerCalled := false, innerRequest := none } :=
  (cache_fresh_hit_serves_cached_entry noDate 0 helloNext
      [(demoCacheUri, demoStoredEntry)] demoCacheRequest 30 demoStoredEntry
      rfl rfl rfl (by decide) rfl (by decide)).1

/-! ## Cache storage characterization lemmas -/

/-- Attaching conditional headers in the revalidation phase does not change
    whether the outgoing request carries `Authorization`. -/
theorem revalidationPhase_auth (entries : Entries) (key : String)
    (request : Request) (now : Nat) (requestCC : CacheControl) :
    Headers.containsKey
        ((revalidationPhase entries key request now requestCC).2.2).headers
        "authorization"
      = Headers.containsKey request.headers "authorization" := by
  unfold revalidationPhase
  cases hentry : Entries.get entries key with
  | none => rfl
  | some entry =>
    dsimp only
    split
    · exact containsKey_auth_applyConditionalHeaders entry request.headers
    · split
      · rfl
      · rfl

/-- `from_response` stores when freshness information is present or
    revalidation is demanded: it returns the `Age`-stripped buffered response
    together with the built entry. -/
theorem fromResponse_stores (parse : String → Option Nat) (sysNow : Nat)
    (response : Response) (directives : CacheControl) (now : Nat)
    (requestNoCache : Bool)
    (hbody : response.body ≠ .consumed)
    (hstore : ((match directives.max_age with
        | some maxAge => some maxAge
        | none => expiresIn parse sysNow response.headers) : Option Nat).isSome = true
      ∨ (directives.no_cache || directives.must_revalidate || requestNoCache) = true) :
    CachedResponse.fromResponse parse sysNow response directives now requestNoCache
      = .ok ({ status := response.status
               headers := Headers.remove response.headers "age"
               body := .bytes response.body.intoBytes },
             some (CachedResponse.buildEntry parse sysNow response directives now
               requestNoCache)) := by
  have hss : (((match directives.max_age with
      | some maxAge => some maxAge
      | none => expiresIn parse sysNow response.headers) : Option Nat).isSome
        || (directives.no_cache || directives.must_revalidate || requestNoCache))
      = true := by
    rcases hstore with h | h
    · rw [h, Bool.true_or]
    · rw [h, Bool.or_true]
  obtain ⟨b, hb1, hb2⟩ : ∃ b, response.body.take = some b
      ∧ b.intoBytes = response.body.intoBytes := by
    cases hbv : response.body with
    | empty => exact ⟨.empty, rfl, rfl⟩
    | bytes d => exact ⟨.bytes d, rfl, rfl⟩
    | stream d => exact ⟨.stream d, rfl, rfl⟩
    | consumed => exact absurd hbv hbody
  unfold CachedResponse.fromResponse
  dsimp only
  simp only [hss, Bool.not_true]
  rw [if_neg (by decide)]
  rw [hb1]
  dsimp only
  rw [hb2]

/-- `from_response` does not store when there is no freshness information and
    no revalidation demand: the response is passed back untouched. -/
theorem fromResponse_skips (parse : String → Option Nat) (sysNow : Nat)
    (response : Response) (directives : CacheControl) (now : Nat)
    (requestNoCache : Bool)
    (hfresh : (match directives.max_age with
        | some maxAge => some maxAge
        | none => expiresIn parse sysNow response.headers) = (none : Option Nat))
    (hmr : (directives.no_cache || directives.must_revalidate || requestNoCache) = false) :
    CachedResponse.fromResponse parse sysNow response directives now requestNoCache
      = .ok (response, none) := by
  unfold CachedResponse.fromResponse
  dsimp only
  simp only [hfresh, hmr, Option.isSome_none, Bool.or_false, Bool.not_false]
  rfl

/-! ## Claim C2: response storage conditions -/

/-- Fixtures for the C2 counterexample: a GET whose `Cache-Control` is
    `no-cache`, against a backend answering a bare 200. -/
def demoNoCacheRequest : Request :=
  { method := .get, uri := demoCacheUri,
    headers := [("cache-control", "no-cache")], body := .empty }

/-- A backend answering a bare 200 with no caching headers. -/
def plainNext : Request → Except Unit Response := fun _ =>
  .ok { status := 200, headers := [], body := .bytes [120] }

/-- The bare 200 response `plainNext` returns. -/
def plainResponse : Response := { status := 200, headers := [], body := .bytes [120] }

/-- C2 counterexample: the claim's storage condition (c) mentions only
    response-side `max-age`/`Expires`/`no-cache`/`must-revalidate`, but the
    code also stores when the *request* carried `no-cache`
    (`request_no_cache` feeds `must_revalidate` in `from_response`): a bare
    200 response with none of the claimed conditions is stored. -/
theorem cache_storage_request_no_cache_cex :
    (Entries.get (Cache.handle noDate 0 [] demoNoCacheRequest 0 plainNext).entries
        demoCacheUri).isSome = true
    ∧ (CacheControl.fromHeaderMap plainResponse.headers).max_age = none
    ∧ expiresIn noDate 0 plainResponse.headers = none
    ∧ (CacheControl.fromHeaderMap plainResponse.headers).no_cache = false
    ∧ (CacheControl.fromHeaderMap plainResponse.headers).must_revalidate = false := by
  exact ⟨by decide, by decide, by decide, by decide, by decide⟩

/-- C2 (amended): for every GET request whose `Cache-Control` lacks `no-store`
    and whose inner-endpoint response is not a 304, the response is stored as
    a cache entry if and only if (a) the response's `Cache-Control` lacks
    `no-store`, (b) the request carried no `Authorization` header or the
    response is marked `public`, and (c) the response carries `max-age` or a
    parsable future `Expires`, or the response's `Cache-Control` sets
    `no-cache` or `must-revalidate`, or the request's `Cache-Control` set
    `no-cache`; when stored, the body is buffered into the entry and a
    synthesized response with a computed `Age` header is returned; otherwise
    the response is returned unmodified and no entry is inserted. -/
theorem cache_storage_iff {ε : Type} (parse : String → Option Nat) (sysNow : Nat)
    (next : Request → Except ε Response) (entries : Entries) (request : Request)
    (now : Nat) (response : Response) (em : Entries)
    (pending : Option CachedResponse) (request' : Request)
    (hmethod : request.method = .get)
    (hnostore : (CacheControl.fromHeaderMap request.headers).no_store = false)
    (hmiss : freshLookup entries request.uri
      (CacheControl.fromHeaderMap request.headers) now = none)
    (hphase : revalidationPhase entries request.uri request now
      (CacheControl.fromHeaderMap request.headers) = (em, pending, request'))
    (hnext : next request' = .ok response)
    (hstatus : ¬response.status = 304)
    (hbody : response.body ≠ .consumed) :
    (((CacheControl.fromHeaderMap response.headers).no_store = false
      ∧ (Headers.containsKey request.headers "authorization" = false
         ∨ (CacheControl.fromHeaderMap response.headers).public = true)
      ∧ ((CacheControl.fromHeaderMap response.headers).max_age.isSome = true
         ∨ (expiresIn parse sysNow response.headers).isSome = true
         ∨ (CacheControl.fromHeaderMap response.headers).no_cache = true
         ∨ (CacheControl.fromHeaderMap response.headers).must_revalidate = true
         ∨ (CacheControl.fromHeaderMap request.headers).no_cache = true)) →
      Cache.handle parse sysNow entries request now next
        = { result := .ok ((CachedResponse.buildEntry parse sysNow response
              (CacheControl.fromHeaderMap response.headers) now
              (CacheControl.fromHeaderMap request.headers).no_cache).toResponse now)
            entries := Entries.insert em request.uri
              (CachedResponse.buildEntry parse sysNow response
                (CacheControl.fromHeaderMap response.headers) now
                (CacheControl.fromHeaderMap request.headers).no_cache)
            innerCalled := true
            innerRequest := some request' }
      ∧ (CachedResponse.buildEntry parse sysNow response
          (CacheControl.fromHeaderMap response.headers) now
          (CacheControl.fromHeaderMap request.headers).no_cache).body
            = response.body.intoBytes
      ∧ (CachedResponse.buildEntry parse sysNow response
          (CacheControl.fromHeaderMap response.headers) now
          (CacheControl.fromHeaderMap request.headers).no_cache).stored_at = now)
    ∧ (¬((CacheControl.fromHeaderMap response.headers).no_store = false
        ∧ (Headers.containsKey request.headers "authorization" = false
           ∨ (CacheControl.fromHeaderMap response.headers).public = true)
        ∧ ((CacheControl.fromHeaderMap response.headers).max_age.isSome = true
           ∨ (expiresIn parse sysNow response.headers).isSome = true
           ∨ (CacheControl.fromHeaderMap response.headers).no_cache = true
           ∨ (CacheControl.fromHeaderMap response.headers).must_revalidate = true
           ∨ (CacheControl.fromHeaderMap request.headers).no_cache = true)) →
      Cache.handle parse sysNow entries request now next
        = { result := .ok response, entries := em,
            innerCalled := true, innerRequest := some request' }) := by
  have hkey : cacheKey request = some request.uri := by
    unfold cacheKey
    rw [hmethod, if_pos rfl]
  have hauthEq : Headers.containsKey request'.headers "authorization"
      = Headers.containsKey request.headers "authorization" := by
    have := revalidationPhase_auth entries request.uri request now
      (CacheControl.fromHeaderMap request.headers)
    rw [hphase] at this
    exact this
  have hred : ∀ tail : CacheOut ε,
      (Cache.handle parse sysNow entries request now next = tail)
        ↔ ((((!Headers.containsKey request'.headers "authorization"
              || (CacheControl.fromHeaderMap response.headers).public)
            && !(CacheControl.fromHeaderMap response.headers).no_store) = true
          ∧ ((match CachedResponse.fromResponse parse sysNow response
                (CacheControl.fromHeaderMap response.headers) now
                (CacheControl.fromHeaderMap request.headers).no_cache with
              | .error _ =>
                ({ result := .error .bodyUnavailable, entries := em,
                   innerCalled := true, innerRequest := some request' } : CacheOut ε)
              | .ok (response2, some entry) =>
                { result := .ok (entry.toResponse now),
                  entries := Entries.insert em request.uri entry,
                  innerCalled := true, innerRequest := some request' }
              | .ok (response2, none) =>
                { result := .ok response2, entries := em,
                  innerCalled := true, innerRequest := some request' })
            = tail))
        ∨ ((((!Headers.containsKey request'.headers "authorization"
              || (CacheControl.fromHeaderMap response.headers).public)
            && !(CacheControl.fromHeaderMap response.headers).no_store) = false)
          ∧ (({ result := .ok response, entries := em,
                innerCalled := true, innerRequest := some request' } : CacheOut ε)
              = tail))) := by
    intro tail
    unfold Cache.handle
    rw [hkey]
    dsimp only
    simp only [hnostore]
    rw [if_neg (by decide), hmiss]
    dsimp only
    rw [hphase]
    dsimp only
    rw [hnext]
    dsimp only
    rw [if_neg hstatus]
    by_cases hall : ((!Headers.containsKey request'.headers "authorization"
        || (CacheControl.fromHeaderMap response.headers).public)
      && !(CacheControl.fromHeaderMap response.headers).no_store) = true
    · rw [if_pos hall]
      constructor
      · exact fun h => .inl ⟨hall, h⟩
      · rintro (⟨-, h⟩ | ⟨hfalse, h⟩)
        · exact h
        · rw [hall] at hfalse
          cases hfalse
    · have hall' : ((!Headers.containsKey request'.headers "authorization"
          || (CacheControl.fromHeaderMap response.headers).public)
        && !(CacheControl.fromHeaderMap response.headers).no_store) = false := by
        rwa [Bool.not_eq_true] at hall
      rw [if_neg hall]
      constructor
      · exact fun h => .inr ⟨hall', h⟩
      · rintro (⟨htrue, h⟩ | ⟨-, h⟩)
        · rw [htrue] at hall'
          cases hall'
        · exact h
  constructor
  · rintro ⟨ha, hb, hc⟩
    have hallow : ((!Headers.containsKey request'.headers "authorization"
        || (CacheControl.fromHeaderMap response.headers).public)
      && !(CacheControl.fromHeaderMap response.headers).no_store) = true := by
      rw [hauthEq, ha]
      rcases hb with hb | hb
      · rw [hb]
        rfl
      · rw [hb, Bool.or_true]
        rfl
    have hstore : (((match (CacheControl.fromHeaderMap response.headers).max_age with
        | some maxAge => some maxAge
        | none => expiresIn parse sysNow response.headers) : Option Nat).isSome = true)
        ∨ (((CacheControl.fromHeaderMap response.headers).no_cache
            || (CacheControl.fromHeaderMap response.headers).must_revalidate
            || (CacheControl.fromHeaderMap request.headers).no_cache) = true) := by
      rcases hc with hc | hc | hc | hc | hc
      · left
        cases hma : (CacheControl.fromHeaderMap response.headers).max_age with
        | none => rw [hma] at hc; exact absurd hc (by decide)
        | some a => rfl
      · left
        cases hma : (CacheControl.fromHeaderMap response.headers).max_age with
        | none => exact hc
        | some a => rfl
      · right; rw [hc]; rfl
      · right; rw [hc, Bool.or_true, Bool.true_or]
      · right; rw [hc, Bool.or_true]
    have hfr := fromResponse_stores parse sysNow response
      (CacheControl.fromHeaderMap response.headers) now
      (CacheControl.fromHeaderMap request.headers).no_cache hbody hstore
    refine ⟨?_, rfl, rfl⟩
    rw [hred]
    left
    refine ⟨hallow, ?_⟩
    rw [hfr]
  · intro hnc
    rw [hred]
    by_cases hns : (CacheControl.fromHeaderMap response.headers).no_store = true
    · right
      refine ⟨?_, rfl⟩
      rw [hns]
      simp
    · have hns' : (CacheControl.fromHeaderMap response.headers).no_store = false := by
        rwa [Bool.not_eq_true] at hns
      by_cases hauth : (!Headers.containsKey request.headers "authorization"
          || (CacheControl.fromHeaderMap response.headers).public) = true
      · have hb : Headers.containsKey request.headers "authorization" = false
            ∨ (CacheControl.fromHeaderMap response.headers).public = true := by
          rcases Bool.or_eq_true_iff.mp hauth with h | h
          · left; rwa [Bool.not_eq_true'] at h
          · right; exact h
        have hcfail : ¬((CacheControl.fromHeaderMap response.headers).max_age.isSome = true
            ∨ (expiresIn parse sysNow response.headers).isSome = true
            ∨ (CacheControl.fromHeaderMap response.headers).no_cache = true
            ∨ (CacheControl.fromHeaderMap response.headers).must_revalidate = true
            ∨ (CacheControl.fromHeaderMap request.headers).no_cache = true) :=
          fun hcc => hnc ⟨hns', hb, hcc⟩
        have hc1 : (CacheControl.fromHeaderMap response.headers).max_age.isSome = false := by
          cases h1 : (CacheControl.fromHeaderMap response.headers).max_age.isSome
          · rfl
          · exact absurd (Or.inl h1) hcfail
        have hc2 : (expiresIn parse sysNow response.headers).isSome = false := by
          cases h1 : (expiresIn parse sysNow response.headers).isSome
          · rfl
          · exact absurd (Or.inr (Or.inl h1)) hcfail
        have hc3 : (CacheControl.fromHeaderMap response.headers).no_cache = false := by
          cases h1 : (CacheControl.fromHeaderMap response.headers).no_cache
          · rfl
          · exact absurd (Or.inr (Or.inr (Or.inl h1))) hcfail
        have hc4 : (CacheControl.fromHeaderMap response.headers).must_revalidate = false := by
          cases h1 : (CacheControl.fromHeaderMap response.headers).must_revalidate
          · rfl
          · exact absurd (Or.inr (Or.inr (Or.inr (Or.inl h1)))) hcfail
        have hc5 : (CacheControl.fromHeaderMap request.headers).no_cache = false := by
          cases h1 : (CacheControl.fromHeaderMap request.headers).no_cache
          · rfl
          · exact absurd (Or.inr (Or.inr (Or.inr (Or.inr h1)))) hcfail
        have hfr := fromResponse_skips parse sysNow response
          (CacheControl.fromHeaderMap response.headers) now
          (CacheControl.fromHeaderMap request.headers).no_cache
          (by
            cases hma : (CacheControl.fromHeaderMap response.headers).max_age with
            | some a =>
              rw [hma] at hc1
              simp at hc1
            | none =>
              cases hE : expiresIn parse sysNow response.headers with
              | some d =>
                rw [hE] at hc2
                simp at hc2
              | none => rfl)
          (by
            rw [hc3, hc4, hc5]
            rfl)
        left
        refine ⟨?_, ?_⟩
        · rw [hauthEq, hauth, hns']
          rfl
        · rw [hfr]
      · right
        refine ⟨?_, rfl⟩
        rw [hauthEq]
        have hauth' : (!Headers.containsKey request.headers "authorization"
            || (CacheControl.fromHeaderMap response.headers).public) = false := by
          rwa [Bool.not_eq_true] at hauth
        rw [hauth']
        rfl

/-- Witness for C2: the amended storage rule applied to the request-side
    `no-cache` scenario — the bare 200 is stored and served synthesized. -/
theorem cache_storage_iff_witness :
    Cache.handle noDate 0 [] demoNoCacheRequest 0 plainNext
      = { result := .ok ((CachedResponse.buildEntry noDate 0 plainResponse
            (CacheControl.fromHeaderMap plainResponse.headers) 0
            (CacheControl.fromHeaderMap demoNoCacheRequest.headers).no_cache).toResponse 0)
          entries := Entries.insert [] demoCacheUri
            (CachedResponse.buildEntry noDate 0 plainResponse
              (CacheControl.fromHeaderMap plainResponse.headers) 0
              (CacheControl.fromHeaderMap demoNoCacheRequest.headers).no_cache)
          innerCalled := true
          innerRequest := some demoNoCacheRequest } :=
  ((cache_storage_iff noDate 0 plainNext [] demoNoCacheRequest 0 plainResponse
      [] none demoNoCacheRequest rfl (by decide) (by decide) (by decide) rfl
      (by decide) (by decide)).1
    ⟨by decide, Or.inl (by decide), Or.inr (Or.inr (Or.inr (Or.inr (by decide))))⟩).1

/-! ## 304-refresh lemmas and claim C6 -/

/-- Folding the allow-listed header merge: a name takes the 304's value when
    the name is merged and present there, and keeps the stored value
    otherwise. -/
theorem mergeHeaders_get (names : List String) (resp : Headers) :
    ∀ (base : Headers) (name : String),
      Headers.get
          (names.foldl (fun hs n =>
            match Headers.get resp n with
            | some value => Headers.insert hs n value
            | none => hs) base) name
        = if name ∈ names ∧ (Headers.get resp name).isSome = true then
            Headers.get resp name
          else Headers.get base name := by
  induction names with
  | nil =>
    intro base name
    rw [List.foldl_nil, if_neg (fun hc => by cases hc.1)]
  | cons n rest ih =>
    intro base name
    rw [List.foldl_cons, ih]
    by_cases hmem : name ∈ rest ∧ (Headers.get resp name).isSome = true
    · rw [if_pos hmem, if_pos ⟨List.mem_cons_of_mem n hmem.1, hmem.2⟩]
    · rw [if_neg hmem]
      by_cases hn : name = n
      · subst hn
        cases hr : Headers.get resp name with
        | some v =>
          rw [Headers.get_insert_self,
            if_pos ⟨List.mem_cons_self name rest, rfl⟩]
        | none =>
          rw [if_neg (fun hc => absurd hc.2 (by decide))]
      · cases hr : Headers.get resp n with
        | some v =>
          rw [Headers.get_insert_ne _ _ _ _ hn,
            if_neg (fun hc => hmem ⟨(List.mem_cons.mp hc.1).resolve_left hn, hc.2⟩)]
        | none =>
          rw [if_neg (fun hc => hmem ⟨(List.mem_cons.mp hc.1).resolve_left hn, hc.2⟩)]

/-- A bad-date parser that knows the single date string `"E"` (150 seconds
    after the epoch). -/
def expiresParse : String → Option Nat := fun s => if s = "E" then some 150 else none

/-- A stale stored entry carrying `cache-control: max-age=100` and an ETag
    validator. -/
def demoStaleEntry : CachedResponse :=
  { status := 200
    headers := [("cache-control", "max-age=100")]
    body := [104]
    stored_at := 0
    freshness := some 100
    must_revalidate := false
    etag := some "\"v1\""
    last_modified := none }

/-- The 304 the backend answers: no `Cache-Control`, only a future `Expires`. -/
def demo304Response : Response :=
  { status := 304, headers := [("expires", "E")], body := .empty }

/-- A backend answering `demo304Response` to every request. -/
def demo304Next : Request → Except Unit Response := fun _ => .ok demo304Response

/-- The conditional request the cache sends for `demoStaleEntry`. -/
def demoINMRequest : Request :=
  { demoCacheRequest with headers := [("if-none-match", "\"v1\"")] }

/-- C6 counterexample: the claim recomputes freshness from the *merged*
    `Cache-Control` max-age (here 100, kept from the stored entry because the
    304 carries no `Cache-Control`), but the code parses only the 304's own
    `Cache-Control` and therefore falls through to the merged `Expires`,
    refreshing to 150 seconds instead of 100. -/
theorem cache_304_freshness_cex :
    ((Entries.get (Cache.handle expiresParse 0 [(demoCacheUri, demoStaleEntry)]
          demoCacheRequest 200 demo304Next).entries demoCacheUri).map
        (fun u => u.freshness))
      = some (some 150)
    ∧ ((Entries.get (Cache.handle expiresParse 0 [(demoCacheUri, demoStaleEntry)]
          demoCacheRequest 200 demo304Next).entries demoCacheUri).map
        (fun u => (CacheControl.fromHeaderMap u.headers).max_age))
      = some (some 100)
    ∧ (some 150 : Option Nat) ≠ some 100 := by
  exact ⟨by decide, by decide, by decide⟩

/-- C6 (amended): when `Cache::handle` issued a conditional request for a
    pending entry and the inner endpoint answers 304, the entry is refreshed:
    `stored_at` resets to now, exactly the headers `Cache-Control`, `ETag`,
    `Expires`, `Date`, `Last-Modified` are merged in from the 304 (names
    absent from the 304, and all other names, keep the stored values),
    freshness is recomputed from the 304's own `Cache-Control` max-age or,
    absent that, from the merged headers' `Expires` (unchanged when neither
    applies), the entry is re-stored under the same key, and a response
    synthesized from the refreshed entry is returned; a 304 with no pending
    entry is returned unchanged. -/
theorem cache_304_refresh {ε : Type} (parse : String → Option Nat) (sysNow : Nat)
    (next : Request → Except ε Response) (entries : Entries) (request : Request)
    (now : Nat)
    (hmethod : request.method = .get)
    (hnostore : (CacheControl.fromHeaderMap request.headers).no_store = false)
    (hmiss : freshLookup entries request.uri
      (CacheControl.fromHeaderMap request.headers) now = none) :
    (∀ (em : Entries) (entry : CachedResponse) (request' : Request) (response : Response),
      revalidationPhase entries request.uri request now
          (CacheControl.fromHeaderMap request.headers) = (em, some entry, request') →
      next request' = .ok response →
      response.status = 304 →
      Cache.handle parse sysNow entries request now next
        = { result := .ok ((entry.updateFrom304 parse sysNow response now).toResponse now)
            entries := Entries.insert em request.uri
              (entry.updateFrom304 parse sysNow response now)
            innerCalled := true
            innerRequest := some request' }
      ∧ (entry.updateFrom304 parse sysNow response now).stored_at = now
      ∧ (∀ name, Headers.get (entry.updateFrom304 parse sysNow response now).headers name
          = if name ∈ (["cache-control", "etag", "expires", "date", "last-modified"] : List String)
                ∧ (Headers.get response.headers name).isSome = true then
              Headers.get response.headers name
            else Headers.get entry.headers name)
      ∧ ((entry.updateFrom304 parse sysNow response now).freshness
          = match (CacheControl.fromHeaderMap response.headers).max_age with
            | some maxAge => some maxAge
            | none =>
              match expiresIn parse sysNow
                  (entry.updateFrom304 parse sysNow response now).headers with
              | some duration => some duration
              | none => entry.freshness))
    ∧ (∀ (em : Entries) (request' : Request) (response : Response),
      revalidationPhase entries request.uri request now
          (CacheControl.fromHeaderMap request.headers) = (em, none, request') →
      next request' = .ok response →
      response.status = 304 →
      Cache.handle parse sysNow entries request now next
        = { result := .ok response, entries := em,
            innerCalled := true, innerRequest := some request' }) := by
  have hkey : cacheKey request = some request.uri := by
    unfold cacheKey
    rw [hmethod, if_pos rfl]
  constructor
  · intro em entry request' response hphase hnext h304
    refine ⟨?_, rfl, ?_, ?_⟩
    · unfold Cache.handle
      rw [hkey]
      dsimp only
      simp only [hnostore]
      rw [if_neg (by decide), hmiss]
      dsimp only
      rw [hphase]
      dsimp only
      rw [hnext]
      dsimp only
      rw [if_pos h304]
    · intro name
      exact mergeHeaders_get ["cache-control", "etag", "expires", "date", "last-modified"]
        response.headers entry.headers name
    · unfold CachedResponse.updateFrom304
      dsimp only
      cases hma : (CacheControl.fromHeaderMap response.headers).max_age with
      | some maxAge => rfl
      | none => rfl
  · intro em request' response hphase hnext h304
    unfold Cache.handle
    rw [hkey]
    dsimp only
    simp only [hnostore]
    rw [if_neg (by decide), hmiss]
    dsimp only
    rw [hphase]
    dsimp only
    rw [hnext]
    dsimp only
    rw [if_pos h304]

/-- Witness for C6: the 304 refresh evaluated on the stale ETag entry with the
    `Expires`-only 304. -/
theorem cache_304_refresh_witness :
    Cache.handle expiresParse 0 [(demoCacheUri, demoStaleEntry)] demoCacheRequest 200
        demo304Next
      = { result := .ok ((demoStaleEntry.updateFrom304 expiresParse 0
            demo304Response 200).toResponse 200)
          entries := Entries.insert [] demoCacheUri
            (demoStaleEntry.updateFrom304 expiresParse 0 demo304Response 200)
          innerCalled := true
          innerRequest := some demoINMRequest } :=
  ((cache_304_refresh expiresParse 0 demo304Next [(demoCacheUri, demoStaleEntry)]
      demoCacheRequest 200 rfl (by decide) (by decide)).1
    [] demoStaleEntry demoINMRequest demo304Response (by decide) rfl rfl).1

/-! ## Claim C7: OAuth2 token expiry -/

/-- C7: when `OAuth2ClientCredentials` parses a successful token response, the
    cached token's `expires_at` equals `now + lifetime - safety`, where the
    lifetime is `expires_in` seconds (3600 when absent) and
    `safety = min(configured safety window, lifetime / 2)`; the subtraction
    never goes negative, and with `expires_in = 3600` and the default 30-second
    safety window the token is treated as expired strictly before the
    3600-second mark. -/
theorem oauth2_expiry_formula (safetyWindow : Nat) (token : TokenEndpointResponse)
    (now : Nat) :
    ((fetchTokenInfo safetyWindow token now).expires_at
        = now + (token.expires_in.getD 3600
            - min safetyWindow (token.expires_in.getD 3600 / 2))
      ∧ min safetyWindow (token.expires_in.getD 3600 / 2) ≤ token.expires_in.getD 3600)
    ∧ ((fetchTokenInfo defaultSafetyWindow
          { access_token := token.access_token, expires_in := some 3600 } now).expires_at
        = now + 3570
      ∧ (∀ t : Nat, now + 3570 ≤ t →
          TokenInfo.isValid
            (fetchTokenInfo defaultSafetyWindow
              { access_token := token.access_token, expires_in := some 3600 } now)
            t = false)
      ∧ 3570 < 3600) := by
  refine ⟨⟨rfl, ?_⟩, ⟨?_, ?_, by norm_num⟩⟩
  · exact le_trans (Nat.min_le_right _ _) (Nat.div_le_self _ _)
  · show now + (3600 - min 30 (3600 / 2)) = now + 3570
    norm_num
  · intro t ht
    show decide (t < now + (3600 - min 30 (3600 / 2))) = false
    have h30 : 3600 - min 30 (3600 / 2) = 3570 := by norm_num
    rw [h30]
    simp only [decide_eq_false_iff_not, not_lt]
    omega

/-- Witness for C7 at `safetyWindow = 30`, `expires_in = 3600`, `now = 0`,
    checked at the instant 3599 (strictly before the 3600-second mark). -/
theorem oauth2_expiry_formula_witness :
    (fetchTokenInfo 30 { access_token := "t", expires_in := some 3600 } 0).expires_at
      = 0 + (3600 - min 30 (3600 / 2))
    ∧ TokenInfo.isValid
        (fetchTokenInfo defaultSafetyWindow
          { access_token := "t", expires_in := some 3600 } 0) 3599 = false :=
  ⟨(oauth2_expiry_formula 30 ⟨"t", none, some 3600⟩ 0).1.1,
    (oauth2_expiry_formula 30 ⟨"t", none, some 3600⟩ 0).2.2.1 3599 (by norm_num)⟩

/-! ## Claim C8: error-to-status mapping -/

/-- C8 counterexample: the claim maps an invalid-redirect-location error to
    status 400, but `error.rs` maps `Error::InvalidRedirectLocation` through
    the catch-all arm to 500. -/
theorem error_status_redirect_location_cex :
    ZError.invalidRedirectLocation.status = 500
    ∧ ZError.invalidRedirectLocation.status ≠ 400 := by
  exact ⟨rfl, by decide⟩

/-- C8 (amended): a timeout error maps to 504 Gateway Timeout (both through
    `TimeoutError` and the unified `Error`), an invalid redirect location
    error maps to 500 Internal Server Error (both through
    `FollowRedirectError` and the unified `Error`), and an OAuth2 upstream
    (token-endpoint non-success) error passes the token endpoint's own status
    through. -/
theorem error_status_mapping :
    ZError.timeout.status = 504
    ∧ timeoutErrorStatus = some 504
    ∧ ZError.invalidRedirectLocation.status = 500
    ∧ (∀ f : ZError → Nat,
        FollowRedirectError.statusOf f (.invalidLocationHeader : FollowRedirectError ZError) = 500
        ∧ FollowRedirectError.statusOf f (.missingLocationHeader : FollowRedirectError ZError) = 500)
    ∧ (∀ (s : Nat) (m : String), (ZError.oauth2 (.tokenEndpointError s m)).status = s)
    ∧ (∀ (s : Nat) (m : String) (f : ZError → Option Nat),
        OAuth2Error.statusOf f (.upstream s m : OAuth2Error ZError) = some s) :=
  ⟨rfl, rfl, rfl, fun _ => ⟨rfl, rfl⟩, fun _ _ => rfl, fun _ _ _ => rfl⟩

/-- Witness for C8 at concrete inputs: the redirect-error mapping evaluated
    with the unified status function, and a 418 upstream OAuth2 error. -/
theorem error_status_mapping_witness :
    FollowRedirectError.statusOf ZError.status
        (.invalidLocationHeader : FollowRedirectError ZError) = 500
    ∧ (ZError.oauth2 (.tokenEndpointError 418 "teapot")).status = 418 :=
  ⟨(error_status_mapping.2.2.2.1 ZError.status).1,
    error_status_mapping.2.2.2.2.1 418 "teapot"⟩

end Zenwave
